import Mathlib

/-!
Verification development for the model-persistor module of the repository
(`rasa_nlu/persistor.py`).  The module offers a backend selector
(`get_persistor`) and three backend adapters (`AWSPersistor`,
`GCSPersistor`, `MongoDBPersistor`), each with `save_tar` and
`fetch_and_extract`.

Embedding choices:
- a filesystem path is a list of components (`FPath`);
- the local filesystem is a flat association list from paths to nodes,
  where a node is a regular file (its content modelled as a string of
  bytes), a gzipped tarball (modelled abstractly as its root entry name
  plus the archived entries, the archive container format itself being an
  external collaborator of the module), or a bare directory entry;
- the remote stores are association lists (bucket keys to objects for the
  object stores, a list of documents for the document store);
- every operation is a state transformer returning `Res`, which records
  the state at the moment an exception is raised, so that side effects
  performed before a failure stay visible (Python exceptions do not roll
  back earlier writes).
-/

/-- First-match lookup in an association list (models Python dict membership
and indexing as used on configs, documents and the modelled stores). -/
def getAssoc {α β : Type} [DecidableEq α] : List (α × β) → α → Option β
  | [], _ => none
  | e :: rest, k => if e.1 = k then some e.2 else getAssoc rest k

/-- Overwrite the first binding of a key, or append a fresh binding (models
writing a file at a path, and object-store put overwriting a key). -/
def setAssoc {α β : Type} [DecidableEq α] : List (α × β) → α → β → List (α × β)
  | [], k, v => [(k, v)]
  | e :: rest, k, v => if e.1 = k then (k, v) :: rest else e :: setAssoc rest k v

/-- Remove the first binding of a key; `none` when the key is absent
(models `dict.pop`, which raises `KeyError` on a missing key). -/
def eraseKey {α β : Type} [DecidableEq α] : List (α × β) → α → Option (List (α × β))
  | [], _ => none
  | e :: rest, k =>
    if e.1 = k then some rest else (eraseKey rest k).map (fun r => e :: r)

/-- A local filesystem path, as its list of components. -/
abbrev FPath := List String

/-- Base name of a path: its last component (`os.path.basename`). -/
def baseName (p : FPath) : String := p.getLast?.getD ""

/-- Parent of a path: the path without its last component (`os.path.dirname`). -/
def dirName (p : FPath) : FPath := p.dropLast

/-- Render a path the way the Python code manipulates it, slash-joined. -/
def joinFPath : FPath → String
  | [] => ""
  | [c] => c
  | c :: rest => c ++ "/" ++ joinFPath rest

/-- Boolean test that the first path is a strict (proper) ancestor of the
second, component by component. -/
def strictPre : FPath → FPath → Bool
  | _, [] => false
  | [], _ :: _ => true
  | a :: as, b :: bs => if a = b then strictPre as bs else false

/-- Strip the first path off the front of the second, when it is a prefix. -/
def descend : FPath → FPath → Option FPath
  | [], q => some q
  | _ :: _, [] => none
  | a :: as, b :: bs => if a = b then descend as bs else none

/-- A node stored in the local filesystem: a regular file with byte content
(modelled as a string), a gzipped tarball produced by `shutil.make_archive`
(modelled abstractly by its root entry name and archived entries, since the
archive container format is an external collaborator whose contract is that
extraction reproduces the archived tree under its root), or a directory
entry created by `os.makedirs`. -/
inductive Node where
  | bytes (content : String)
  | tarArchive (root : String) (entries : List (FPath × Node))
  | dirMark

instance : Inhabited Node := ⟨Node.dirMark⟩

/-- The local filesystem: a flat association list from paths to nodes.
Directories also exist implicitly, as proper ancestors of stored paths. -/
abbrev Fs := List (FPath × Node)

/-- Read a regular file: `some` content only when the path holds plain bytes
(reading a missing path or a directory raises in Python). -/
def readFileStr (fs : Fs) (p : FPath) : Option String :=
  match getAssoc fs p with
  | some (Node.bytes c) => some c
  | _ => none

/-- Model of `os.path.isdir`: the path has an explicit directory entry, or it
is a proper ancestor of some stored path. -/
def isdirFs (fs : Fs) (p : FPath) : Bool :=
  fs.any (fun e => strictPre p e.1) ||
    (match getAssoc fs p with
     | some Node.dirMark => true
     | _ => false)

/-- Model of `os.path.exists`. -/
def existsFs (fs : Fs) (p : FPath) : Bool :=
  (getAssoc fs p).isSome || fs.any (fun e => strictPre p e.1)

/-- The tree rooted at a path: all stored entries strictly below it, with the
prefix stripped.  This is the notion of directory tree the round-trip claims
compare byte for byte. -/
def subtreeFs (fs : Fs) (p : FPath) : List (FPath × Node) :=
  fs.filterMap (fun e =>
    match descend p e.1 with
    | some [] => none
    | some r => some (r, e.2)
    | none => none)

/-- Write each archived entry below the destination directory, in order
(the per-entry step of `tarfile.extractall`). -/
def placeEntries (fs : Fs) (dest : FPath) (entries : List (FPath × Node)) : Fs :=
  entries.foldl (fun acc e => setAssoc acc (dest ++ e.1) e.2) fs

/-- Model of `tarfile.extractall(data_dir)` on an archive with root entry
`root`: create the root directory under the destination, then materialize
every archived entry below it. -/
def extractTar (fs : Fs) (dataDir : FPath) (root : String)
    (entries : List (FPath × Node)) : Fs :=
  placeEntries (setAssoc fs (dataDir ++ [root]) Node.dirMark) (dataDir ++ [root]) entries

/-- Model of `os.makedirs`: create every missing directory entry along the
path, outermost first.  `done` is the already-walked prefix. -/
def makeDirsAux (fs : Fs) (done : FPath) : List String → Fs
  | [] => fs
  | c :: rest =>
    let cur := done ++ [c]
    let fs' := if existsFs fs cur then fs else setAssoc fs cur Node.dirMark
    makeDirsAux fs' cur rest

/-- Model of `os.makedirs(p)`. -/
def makeDirs (fs : Fs) (p : FPath) : Fs := makeDirsAux fs [] p

/-- JSON values as handled by the document-store backend (`json.load` and
`json.dump` from the Python standard library, external collaborators of the
module; numbers restricted to integers in this model). -/
inductive Json where
  | null
  | bool (b : Bool)
  | num (n : Int)
  | str (s : String)
  | arr (elems : List Json)
  | obj (fields : List (String × Json))

/-- Whitespace accepted between JSON tokens. -/
def isJsonWs (c : Char) : Bool :=
  c = ' ' || c = '\t' || c = '\n' || c = '\r'

/-- Skip leading whitespace. -/
def skipWs : List Char → List Char
  | [] => []
  | c :: cs => if isJsonWs c then skipWs cs else c :: cs

/-- Accumulate a run of decimal digits into a number. -/
def digitsToNat (acc : Nat) : List Char → (Nat × List Char)
  | [] => (acc, [])
  | c :: cs =>
    if c.isDigit then digitsToNat (acc * 10 + (c.toNat - 48)) cs else (acc, c :: cs)

/-- Parse the body of a JSON string literal after the opening quote: returns
the decoded characters and the input remaining after the closing quote. -/
def parseStrChars : List Char → Option (List Char × List Char)
  | [] => none
  | c :: cs =>
    if c = '"' then some ([], cs)
    else if c = '\\' then
      match cs with
      | [] => none
      | e :: cs2 =>
        let dec : Option Char :=
          if e = '"' then some '"'
          else if e = '\\' then some '\\'
          else if e = '/' then some '/'
          else if e = 'n' then some '\n'
          else if e = 't' then some '\t'
          else if e = 'r' then some '\r'
          else none
        match dec with
        | none => none
        | some d =>
          match parseStrChars cs2 with
          | some (out, rest) => some (d :: out, rest)
          | none => none
    else
      match parseStrChars cs with
      | some (out, rest) => some (c :: out, rest)
      | none => none

mutual

/-- Fuel-bounded recursive-descent JSON value parser. -/
def parseVal : Nat → List Char → Option (Json × List Char)
  | 0, _ => none
  | fuel + 1, cs =>
    match skipWs cs with
    | [] => none
    | c :: rest =>
      if c = 'n' then
        if rest.take 3 = ['u', 'l', 'l'] then some (Json.null, rest.drop 3) else none
      else if c = 't' then
        if rest.take 3 = ['r', 'u', 'e'] then some (Json.bool true, rest.drop 3) else none
      else if c = 'f' then
        if rest.take 4 = ['a', 'l', 's', 'e'] then some (Json.bool false, rest.drop 4) else none
      else if c = '"' then
        match parseStrChars rest with
        | some (out, r2) => some (Json.str (String.mk out), r2)
        | none => none
      else if c = '-' then
        match rest with
        | d :: _ =>
          if d.isDigit then
            let pr := digitsToNat 0 rest
            some (Json.num (-(Int.ofNat pr.1)), pr.2)
          else none
        | [] => none
      else if c.isDigit then
        let pr := digitsToNat 0 (c :: rest)
        some (Json.num (Int.ofNat pr.1), pr.2)
      else if c = '[' then
        match skipWs rest with
        | ']' :: r2 => some (Json.arr [], r2)
        | _ =>
          match parseElems fuel rest with
          | some (xs, r2) => some (Json.arr xs, r2)
          | none => none
      else if c = '\x7b' then
        match skipWs rest with
        | '\x7d' :: r2 => some (Json.obj [], r2)
        | _ =>
          match parseMembers fuel rest with
          | some (ms, r2) => some (Json.obj ms, r2)
          | none => none
      else none

/-- Parse one or more comma-separated array elements up to the closing
bracket. -/
def parseElems : Nat → List Char → Option (List Json × List Char)
  | 0, _ => none
  | fuel + 1, cs =>
    match parseVal fuel cs with
    | none => none
    | some (v, r) =>
      match skipWs r with
      | ',' :: r2 =>
        match parseElems fuel r2 with
        | some (vs, r3) => some (v :: vs, r3)
        | none => none
      | ']' :: r2 => some ([v], r2)
      | _ => none

/-- Parse one or more comma-separated object members up to the closing
brace. -/
def parseMembers : Nat → List Char → Option (List (String × Json) × List Char)
  | 0, _ => none
  | fuel + 1, cs =>
    match skipWs cs with
    | '"' :: r =>
      match parseStrChars r with
      | none => none
      | some (key, r2) =>
        match skipWs r2 with
        | ':' :: r3 =>
          match parseVal fuel r3 with
          | none => none
          | some (v, r4) =>
            match skipWs r4 with
            | ',' :: r5 =>
              match parseMembers fuel r5 with
              | some (ms, r6) => some ((String.mk key, v) :: ms, r6)
              | none => none
            | '\x7d' :: r5 => some ([(String.mk key, v)], r5)
            | _ => none
        | _ => none
    | _ => none

end

/-- Model of `json.load` on a file content: parse one JSON value and require
only trailing whitespace after it. -/
def parseJson (s : String) : Option Json :=
  match parseVal (s.length * 2 + 8) s.toList with
  | some (v, rest) => if skipWs rest = [] then some v else none
  | none => none

/-- Escape one character for a JSON string literal. -/
def escapeChar (c : Char) : String :=
  if c = '"' then "\\\""
  else if c = '\\' then "\\\\"
  else if c = '\n' then "\\n"
  else if c = '\t' then "\\t"
  else if c = '\r' then "\\r"
  else String.mk [c]

/-- Escape a whole string for a JSON string literal. -/
def escapeStr (s : String) : String := String.join (s.toList.map escapeChar)

mutual

/-- Model of `json.dump` with its default separators: elements joined with
a comma and a space, keys and values joined with a colon and a space. -/
def dumpJson : Json → String
  | Json.null => "null"
  | Json.bool true => "true"
  | Json.bool false => "false"
  | Json.num n => toString n
  | Json.str s => "\"" ++ escapeStr s ++ "\""
  | Json.arr xs => "[" ++ dumpElems xs ++ "]"
  | Json.obj fs => "\x7b" ++ dumpFields fs ++ "\x7d"

/-- Serialize array elements. -/
def dumpElems : List Json → String
  | [] => ""
  | [x] => dumpJson x
  | x :: y :: rest => dumpJson x ++ ", " ++ dumpElems (y :: rest)

/-- Serialize object members. -/
def dumpFields : List (String × Json) → String
  | [] => ""
  | [(k, v)] => "\"" ++ escapeStr k ++ "\": " ++ dumpJson v
  | (k, v) :: y :: rest =>
    "\"" ++ escapeStr k ++ "\": " ++ dumpJson v ++ ", " ++ dumpFields (y :: rest)

end

/-- The exceptions the module can raise: `ValueError` (invalid save target,
model missing from the collection), `KeyError` (missing configuration key,
`dict.pop` on a missing key), a failed `open` on a missing manifest file, a
`json.load` failure, the `botocore` client error surfaced when downloading a
missing S3 key, the `google.cloud` not-found error, and a `tarfile` read
failure on a non-archive download. -/
inductive PErr where
  | valueError (msg : String)
  | keyError (msg : String)
  | fileNotFound (p : FPath)
  | jsonError (p : FPath)
  | clientError (key : String)
  | notFound (key : String)
  | tarReadError (p : FPath)

/-- Outcome of a stateful operation: either a final state, or an exception
together with the state at the moment it was raised (side effects performed
before the failure remain visible, as in Python). -/
inductive Res (σ : Type) where
  | ok (s : σ)
  | err (e : PErr) (s : σ)

/-- A configuration mapping (`RasaNLUConfig` behaves as a string map here). -/
abbrev Config := List (String × String)

/-- The persistor instance `get_persistor` selects and constructs, carrying
the configuration fields each constructor consumes. -/
inductive PersistorChoice where
  | awsChoice (path : String) (aws_region : String) (bucket_name : String)
  | gcsChoice (path : String) (bucket_name : String)
  | mongoChoice (mongodb_uri : String) (collection_name : String)

/-- Indexing a configuration key (`config[key]` raises `KeyError` when the
key is absent). -/
def cfgGet (config : Config) (key : String) : Except PErr String :=
  match getAssoc config key with
  | some v => Except.ok v
  | none => Except.error (PErr.keyError key)

/-- Model of `get_persistor`: raise a `KeyError` naming the supported values
when `storage` is absent, construct the matching backend for the three
recognized identifiers, and fall through to the initial `p = None` for any
other value.  Construction-time store effects (bucket creation, client
connection) are outside the selection contract modelled here. -/
def get_persistor (config : Config) : Except PErr (Option PersistorChoice) :=
  match getAssoc config "storage" with
  | none =>
    Except.error (PErr.keyError
      "No persistent storage specified. Supported values are aws, gcs, mongodb")
  | some s =>
    if s = "aws" then do
      let path ← cfgGet config "path"
      let region ← cfgGet config "aws_region"
      let bucket ← cfgGet config "bucket_name"
      return some (PersistorChoice.awsChoice path region bucket)
    else if s = "gcs" then do
      let path ← cfgGet config "path"
      let bucket ← cfgGet config "bucket_name"
      return some (PersistorChoice.gcsChoice path bucket)
    else if s = "mongodb" then do
      let uri ← cfgGet config "mongodb_uri"
      let coll ← cfgGet config "collection_name"
      return some (PersistorChoice.mongoChoice uri coll)
    else
      return none

/-- The S3-backed persistor (fields set by its constructor; the region is
consumed only by construction-time bucket creation). -/
structure AWSPersistor where
  data_dir : FPath
  bucket_name : String

/-- World an `AWSPersistor` operation acts on: the local filesystem, the
working directory relative paths resolve against, and the objects stored in
the bucket. -/
structure S3World where
  fs : Fs
  cwd : FPath
  objects : List (String × Node)

/-- Model of `AWSPersistor.save_tar`: reject a non-directory target with
`ValueError`; archive `base_dir/base_name` with `shutil.make_archive`, which
drops the tarball named after the base name in the working directory; upload
the tarball under a key equal to the tarball file name. -/
def AWSPersistor.save_tar (P : AWSPersistor) (target_dir : FPath) (w : S3World) :
    Res S3World :=
  if isdirFs w.fs target_dir = false then
    Res.err (PErr.valueError
      ("Target directory \x27" ++ joinFPath target_dir ++ "\x27 not found.")) w
  else
    let base_name := baseName target_dir
    let base_dir := dirName target_dir
    let tarNode := Node.tarArchive base_name (subtreeFs w.fs (base_dir ++ [base_name]))
    let tarPath := w.cwd ++ [base_name ++ ".tar.gz"]
    let fs1 := setAssoc w.fs tarPath tarNode
    let filekey := base_name ++ ".tar.gz"
    match getAssoc fs1 tarPath with
    | some body =>
      Res.ok { w with fs := fs1, objects := setAssoc w.objects filekey body }
    | none => Res.err (PErr.fileNotFound tarPath) { w with fs := fs1 }

/-- Model of `AWSPersistor.fetch_and_extract`: `io.open(filename, 'wb')`
creates (truncates) the local file before the download starts, so a missing
key leaves that empty file behind; on success the downloaded tarball is
extracted into the configured data directory. -/
def AWSPersistor.fetch_and_extract (P : AWSPersistor) (filename : String)
    (w : S3World) : Res S3World :=
  let localFPath := w.cwd ++ [filename]
  let fs1 := setAssoc w.fs localFPath (Node.bytes "")
  match getAssoc w.objects filename with
  | none => Res.err (PErr.clientError filename) { w with fs := fs1 }
  | some node =>
    let fs2 := setAssoc fs1 localFPath node
    match node with
    | Node.tarArchive root entries =>
      Res.ok { w with fs := extractTar fs2 P.data_dir root entries }
    | _ => Res.err (PErr.tarReadError localFPath) { w with fs := fs2 }

/-- The GCS-backed persistor. -/
structure GCSPersistor where
  data_dir : FPath
  bucket_name : String

/-- World a `GCSPersistor` operation acts on. -/
structure GCSWorld where
  fs : Fs
  cwd : FPath
  blobs : List (String × Node)

/-- Model of `GCSPersistor.save_tar`; identical packaging to the S3 variant,
uploading via `blob.upload_from_filename`. -/
def GCSPersistor.save_tar (P : GCSPersistor) (target_dir : FPath) (w : GCSWorld) :
    Res GCSWorld :=
  if isdirFs w.fs target_dir = false then
    Res.err (PErr.valueError
      ("target_dir \x27" ++ joinFPath target_dir ++ "\x27 not found.")) w
  else
    let base_name := baseName target_dir
    let base_dir := dirName target_dir
    let tarNode := Node.tarArchive base_name (subtreeFs w.fs (base_dir ++ [base_name]))
    let tarPath := w.cwd ++ [base_name ++ ".tar.gz"]
    let fs1 := setAssoc w.fs tarPath tarNode
    let filekey := base_name ++ ".tar.gz"
    match getAssoc fs1 tarPath with
    | some body =>
      Res.ok { w with fs := fs1, blobs := setAssoc w.blobs filekey body }
    | none => Res.err (PErr.fileNotFound tarPath) { w with fs := fs1 }

/-- Model of `GCSPersistor.fetch_and_extract`: `blob.download_to_filename`
raises not-found without local writes when the blob is absent (the client
library is an external collaborator; its contract here follows the spec),
then the downloaded tarball is extracted into the data directory. -/
def GCSPersistor.fetch_and_extract (P : GCSPersistor) (filename : String)
    (w : GCSWorld) : Res GCSWorld :=
  match getAssoc w.blobs filename with
  | none => Res.err (PErr.notFound filename) w
  | some node =>
    let localFPath := w.cwd ++ [filename]
    let fs1 := setAssoc w.fs localFPath node
    match node with
    | Node.tarArchive root entries =>
      Res.ok { w with fs := extractTar fs1 P.data_dir root entries }
    | _ => Res.err (PErr.tarReadError localFPath) { w with fs := fs1 }

/-- A value stored in a document field: the model-name string, an embedded
parsed JSON structure, a `bson.Binary` payload, or the `_id` the driver adds
on insert (modelled as a counter). -/
inductive DocVal where
  | strVal (s : String)
  | jsonVal (j : Json)
  | binVal (content : String)
  | oid (n : Nat)

/-- A document: an ordered field map, as a Python dict. -/
abbrev Doc := List (String × DocVal)

/-- The MongoDB-backed persistor. -/
structure MongoDBPersistor where
  mongo_uri : String
  collection_name : String

/-- World a `MongoDBPersistor` operation acts on: the local filesystem, the
working directory, the collection contents in insertion order, and the
driver counter for fresh `_id` values. -/
structure MongoWorld where
  fs : Fs
  cwd : FPath
  collection : List Doc
  nextId : Nat

/-- The fixed manifest of relative file paths every saved bundle must
contain (`MongoDBPersistor.data_file_names`). -/
def data_file_names : List String :=
  ["intent_classifier.pkl", "metadata.json", "entity_synonyms.json",
   "training_data.json", "ner/config.json", "ner/model"]

/-- Split a slash-joined relative file name into path components, tracking
an accumulator of the current component read so far (reversed). -/
def splitCharAux : List Char → List Char → List String
  | [], acc => [String.mk acc.reverse]
  | c :: cs, acc =>
    if c = '/' then String.mk acc.reverse :: splitCharAux cs []
    else splitCharAux cs (c :: acc)

/-- Components of a slash-joined relative file name, as built by the string
formatting in the Python code. -/
def splitFPath (s : String) : FPath := splitCharAux s.toList []

/-- Index of the last dot in a character list, when any. -/
def lastDotIdx : List Char → Option Nat
  | [] => none
  | c :: cs =>
    match lastDotIdx cs with
    | some i => some (i + 1)
    | none => if c = '.' then some 0 else none

/-- Model of the extension part of `os.path.splitext`: split the base name
at its last dot, provided some non-dot character precedes that dot. -/
def fileExtension (name : String) : String :=
  let base := (splitFPath name).getLast?.getD name
  let cs := base.toList
  match lastDotIdx cs with
  | none => ""
  | some i =>
    if (cs.take i).any (fun c => if c = '.' then false else true) then
      String.mk (cs.drop i)
    else ""

/-- The manifest-reading loop of `MongoDBPersistor.save_tar`: for each
manifest entry, open `target_dir/file_name`; parse it when its extension is
`.json`, otherwise wrap the raw bytes as a binary field; the first failure
(missing file or undecodable JSON) aborts the whole save. -/
def buildFields (fs : Fs) (target : FPath) : List String → Except PErr Doc
  | [] => Except.ok []
  | f :: rest =>
    let loc := target ++ splitFPath f
    match readFileStr fs loc with
    | none => Except.error (PErr.fileNotFound loc)
    | some content =>
      if fileExtension f = ".json" then
        match parseJson content with
        | none => Except.error (PErr.jsonError loc)
        | some j =>
          (buildFields fs target rest).map (fun ds => (f, DocVal.jsonVal j) :: ds)
      else
        (buildFields fs target rest).map (fun ds => (f, DocVal.binVal content) :: ds)

/-- Model of `MongoDBPersistor.save_tar`: reject a non-directory target,
then build the document (`model_name` first, manifest fields in order),
and insert it into the collection; the driver appends a fresh `_id` to the
inserted dict. -/
def MongoDBPersistor.save_tar (P : MongoDBPersistor) (target_dir : FPath)
    (w : MongoWorld) : Res MongoWorld :=
  if isdirFs w.fs target_dir = false then
    Res.err (PErr.valueError
      ("Target directory \x27" ++ joinFPath target_dir ++ "\x27 not found.")) w
  else
    let base_name := baseName target_dir
    match buildFields w.fs target_dir data_file_names with
    | Except.error e => Res.err e w
    | Except.ok fields =>
      let doc : Doc :=
        ("model_name", DocVal.strVal base_name) :: fields ++ [("_id", DocVal.oid w.nextId)]
      Res.ok { w with collection := w.collection ++ [doc], nextId := w.nextId + 1 }

/-- Whether a document matches the `find_one` filter on `model_name`. -/
def docMatches (d : Doc) (name : String) : Bool :=
  match getAssoc d "model_name" with
  | some (DocVal.strVal s) => if s = name then true else false
  | _ => false

/-- The bytes one fetched field writes back to disk: JSON-extension fields
are re-serialized with `json.dump`, all other fields are written raw. -/
def fieldBytes (file_name : String) (data : DocVal) : String :=
  if fileExtension file_name = ".json" then
    match data with
    | DocVal.jsonVal j => dumpJson j
    | DocVal.strVal s => dumpJson (Json.str s)
    | DocVal.binVal c => c
    | DocVal.oid n => dumpJson (Json.num n)
  else
    match data with
    | DocVal.binVal c => c
    | DocVal.strVal s => s
    | DocVal.jsonVal j => dumpJson j
    | DocVal.oid n => toString n

/-- The field-writing loop of `MongoDBPersistor.fetch_and_extract`: for each
remaining field, reconstruct `base_dir/model_name/file_name`, create missing
intermediate directories, and write the field content back. -/
def writeFields (fs : Fs) (base_dir : FPath) (model_name : String) : Doc → Fs
  | [] => fs
  | (file_name, data) :: rest =>
    let file_loc := base_dir ++ [model_name] ++ splitFPath file_name
    let model_base_dir := dirName file_loc
    let fs1 := if existsFs fs model_base_dir then fs else makeDirs fs model_base_dir
    let fs2 := setAssoc fs1 file_loc (Node.bytes (fieldBytes file_name data))
    writeFields fs2 base_dir model_name rest

/-- Model of `MongoDBPersistor.fetch_and_extract`: look the document up by
the base name of `model_dir`, raise `ValueError` when absent, pop the two
identity fields, and write every remaining field back under
`base_dir/model_name`. -/
def MongoDBPersistor.fetch_and_extract (P : MongoDBPersistor) (model_dir : FPath)
    (w : MongoWorld) : Res MongoWorld :=
  let model_name := baseName model_dir
  let base_dir := dirName model_dir
  match w.collection.find? (fun d => docMatches d model_name) with
  | none =>
    Res.err (PErr.valueError
      ("Collection does not contain a model for given name \x27" ++ model_name ++ "\x27")) w
  | some d =>
    match eraseKey d "_id" with
    | none => Res.err (PErr.keyError "_id") w
    | some d1 =>
      match eraseKey d1 "model_name" with
      | none => Res.err (PErr.keyError "model_name") w
      | some d2 => Res.ok { w with fs := writeFields w.fs base_dir model_name d2 }

/-- Classify the errors the manifest-reading loop can raise: a failed open
or a failed JSON decode. -/
def readErrKind : PErr → Bool
  | PErr.fileNotFound _ => true
  | PErr.jsonError _ => true
  | _ => false

/-- Compose a document-store save with the corresponding fetch and read one
file of the restored tree, to state concrete round-trip observations. -/
def mongoRoundTripRead (P : MongoDBPersistor) (target : FPath) (w : MongoWorld)
    (q : FPath) : Option String :=
  match P.save_tar target w with
  | Res.ok w1 =>
    match P.fetch_and_extract target w1 with
    | Res.ok w2 => readFileStr w2.fs q
    | Res.err _ _ => none
  | Res.err _ _ => none

/-- A concrete complete model bundle under directory `m`, used to instantiate
the round-trip statements (the metadata content carries a leading space to
observe JSON re-serialization). -/
def exampleBundleFs : Fs :=
  [(["m", "intent_classifier.pkl"], Node.bytes "P"),
   (["m", "metadata.json"], Node.bytes " 1"),
   (["m", "entity_synonyms.json"], Node.bytes "[]"),
   (["m", "training_data.json"], Node.bytes "0"),
   (["m", "ner", "config.json"], Node.bytes "1"),
   (["m", "ner", "model"], Node.bytes "M")]

/-- A concrete document-store world holding the example bundle. -/
def exampleMongoWorld : MongoWorld :=
  { fs := exampleBundleFs, cwd := [], collection := [], nextId := 0 }

theorem getAssoc_setAssoc_self {α β : Type} [DecidableEq α]
    (l : List (α × β)) (k : α) (v : β) : getAssoc (setAssoc l k v) k = some v := by
  induction l with
  | nil => simp [getAssoc, setAssoc]
  | cons e rest ih =>
    by_cases h : e.1 = k
    · simp [getAssoc, setAssoc, h]
    · simp [getAssoc, setAssoc, h, ih]

theorem getAssoc_setAssoc_ne {α β : Type} [DecidableEq α]
    (l : List (α × β)) (k k' : α) (v : β) (h : k' ≠ k) :
    getAssoc (setAssoc l k v) k' = getAssoc l k' := by
  induction l with
  | nil => simp [getAssoc, setAssoc, Ne.symm h]
  | cons e rest ih =>
    by_cases he : e.1 = k
    · subst he
      simp [getAssoc, setAssoc, Ne.symm h]
    · by_cases he' : e.1 = k' <;> simp [getAssoc, setAssoc, he, he', ih, h]

theorem setAssoc_setAssoc_same {α β : Type} [DecidableEq α]
    (l : List (α × β)) (k : α) (a b : β) :
    setAssoc (setAssoc l k a) k b = setAssoc l k b := by
  induction l with
  | nil => simp [setAssoc]
  | cons e rest ih =>
    by_cases h : e.1 = k
    · simp [setAssoc, h]
    · simp [setAssoc, h, ih]

theorem setAssoc_of_getAssoc_none {α β : Type} [DecidableEq α]
    (l : List (α × β)) (k : α) (v : β) (h : getAssoc l k = none) :
    setAssoc l k v = l ++ [(k, v)] := by
  induction l with
  | nil => simp [setAssoc]
  | cons e rest ih =>
    by_cases he : e.1 = k
    · simp [getAssoc, he] at h
    · simp [getAssoc, he] at h
      simp [setAssoc, he, ih h]

theorem getAssoc_append_none {α β : Type} [DecidableEq α]
    (l₁ l₂ : List (α × β)) (k : α) (h : getAssoc l₁ k = none) :
    getAssoc (l₁ ++ l₂) k = getAssoc l₂ k := by
  induction l₁ with
  | nil => simp
  | cons e rest ih =>
    by_cases he : e.1 = k
    · simp [getAssoc, he] at h
    · simp [getAssoc, he] at h
      simp [getAssoc, he, ih h]

theorem getAssoc_mem_keys {α β : Type} [DecidableEq α]
    (l : List (α × β)) (k : α) (v : β) (h : getAssoc l k = some v) :
    k ∈ l.map Prod.fst := by
  induction l with
  | nil => simp [getAssoc] at h
  | cons e rest ih =>
    by_cases he : e.1 = k
    · simp [he.symm]
    · simp [getAssoc, he] at h
      simp [ih h]

theorem getAssoc_none_of_not_mem_keys {α β : Type} [DecidableEq α]
    (l : List (α × β)) (k : α) (h : k ∉ l.map Prod.fst) :
    getAssoc l k = none := by
  induction l with
  | nil => rfl
  | cons e rest ih =>
    simp at h
    simp [getAssoc, Ne.symm h.1, ih (by simp [h.2])]

theorem dirName_append_baseName (p : FPath) (h : p ≠ []) :
    dirName p ++ [baseName p] = p := by
  induction p with
  | nil => exact absurd rfl h
  | cons a rest ih =>
    cases rest with
    | nil => simp [dirName, baseName]
    | cons b rest' =>
      have := ih (by simp)
      simp [dirName, baseName] at this ⊢
      exact this

theorem strictPre_append (p q : FPath) (h : q ≠ []) :
    strictPre p (p ++ q) = true := by
  induction p with
  | nil =>
    cases q with
    | nil => exact absurd rfl h
    | cons c cs => rfl
  | cons a as ih => simp [strictPre, ih]

theorem strictPre_self (p : FPath) : strictPre p p = false := by
  induction p with
  | nil => rfl
  | cons a as ih => simp [strictPre, ih]

theorem strictPre_iff (p q : FPath) :
    strictPre p q = true ↔ ∃ r, r ≠ [] ∧ q = p ++ r := by
  induction p generalizing q with
  | nil =>
    cases q with
    | nil => simp [strictPre]
    | cons c cs =>
      simp only [strictPre, true_iff]
      exact ⟨c :: cs, by simp, rfl⟩
  | cons a as ih =>
    cases q with
    | nil => simp [strictPre]
    | cons b bs =>
      by_cases hab : a = b
      · subst hab
        simp [strictPre, ih]
      · simp only [strictPre, if_neg hab]
        constructor
        · intro hfalse
          simp at hfalse
        · rintro ⟨r, hr, hq⟩
          rw [List.cons_append] at hq
          injection hq with h1 h2
          exact absurd h1.symm hab

theorem descend_eq_some (p q r : FPath) : descend p q = some r ↔ q = p ++ r := by
  induction p generalizing q with
  | nil => simp [descend, eq_comm]
  | cons a as ih =>
    cases q with
    | nil => simp [descend]
    | cons b bs =>
      by_cases hab : a = b
      · subst hab
        simp [descend, ih]
      · simp only [descend, if_neg hab]
        constructor
        · intro hfalse
          simp at hfalse
        · intro hq
          rw [List.cons_append] at hq
          injection hq with h1 h2
          exact absurd h1.symm hab

theorem descend_append (p r : FPath) : descend p (p ++ r) = some r := by
  exact (descend_eq_some p (p ++ r) r).mpr rfl

theorem append_left_cancel_path {t a b : FPath} (h : t ++ a = t ++ b) : a = b := by
  induction t with
  | nil => exact h
  | cons c cs ih =>
    simp only [List.cons_append, List.cons.injEq] at h
    exact ih h.2

theorem append_ne_of_ne {t a b : FPath} (h : a ≠ b) : t ++ a ≠ t ++ b :=
  fun hh => h (append_left_cancel_path hh)

theorem subtreeFs_nil_path (fs : Fs) : subtreeFs fs [] =
    fs.filterMap (fun e => match e.1 with | [] => none | _ => some (e.1, e.2)) := by
  unfold subtreeFs
  congr 1
  funext e
  cases h : e.1 with
  | nil => simp [descend]
  | cons a as => simp [descend, h]

theorem subtree_mem_ne_nil (fs : Fs) (p : FPath) (e : FPath × Node)
    (h : e ∈ subtreeFs fs p) : e.1 ≠ [] := by
  induction fs with
  | nil => simp [subtreeFs] at h
  | cons x rest ih =>
    unfold subtreeFs at h
    rw [List.filterMap_cons] at h
    cases hd : descend p x.1 with
    | none =>
      rw [hd] at h
      exact ih (by simpa [subtreeFs] using h)
    | some r =>
      cases r with
      | nil =>
        rw [hd] at h
        exact ih (by simpa [subtreeFs] using h)
      | cons a as =>
        rw [hd] at h
        simp at h
        cases h with
        | inl he => simp [he]
        | inr he => exact ih (by simpa [subtreeFs] using he)

theorem subtree_keys_mem (fs : Fs) (p : FPath) (e : FPath × Node)
    (h : e ∈ subtreeFs fs p) : (p ++ e.1) ∈ fs.map Prod.fst := by
  induction fs with
  | nil => simp [subtreeFs] at h
  | cons x rest ih =>
    unfold subtreeFs at h
    rw [List.filterMap_cons] at h
    cases hd : descend p x.1 with
    | none =>
      rw [hd] at h
      simp [ih (by simpa [subtreeFs] using h)]
    | some r =>
      cases r with
      | nil =>
        rw [hd] at h
        simp [ih (by simpa [subtreeFs] using h)]
      | cons a as =>
        rw [hd] at h
        simp at h
        cases h with
        | inl he =>
          have hx : x.1 = p ++ (a :: as) := (descend_eq_some p x.1 (a :: as)).mp hd
          rw [he]
          simp [hx]
        | inr he => simp [ih (by simpa [subtreeFs] using he)]

theorem getAssoc_none_of_subtree_nil (fs : Fs) (p q : FPath)
    (hq : q ≠ []) (h : subtreeFs fs p = []) : getAssoc fs (p ++ q) = none := by
  induction fs with
  | nil => rfl
  | cons x rest ih =>
    unfold subtreeFs at h
    rw [List.filterMap_cons] at h
    cases hd : descend p x.1 with
    | none =>
      rw [hd] at h
      have hx : x.1 ≠ p ++ q := by
        intro he
        rw [he, descend_append] at hd
        exact absurd hd (by simp)
      simp [getAssoc, hx, ih (by simpa [subtreeFs] using h)]
    | some r =>
      cases r with
      | nil =>
        rw [hd] at h
        have hx : x.1 = p := by
          have := (descend_eq_some p x.1 []).mp hd
          simpa using this
        have hne : x.1 ≠ p ++ q := by
          rw [hx]
          intro he
          have : q = ([] : FPath) := by
            have := append_left_cancel_path (t := p) (a := []) (b := q) (by simpa using he)
            exact this.symm
          exact hq this
        simp [getAssoc, hne, ih (by simpa [subtreeFs] using h)]
      | cons a as =>
        rw [hd] at h
        simp at h

theorem subtree_setAssoc_notUnder (fs : Fs) (p k : FPath) (v : Node)
    (h : strictPre p k = false) :
    subtreeFs (setAssoc fs k v) p = subtreeFs fs p := by
  have hdk : descend p k = none ∨ descend p k = some [] := by
    cases hd : descend p k with
    | none => exact Or.inl rfl
    | some r =>
      cases r with
      | nil => exact Or.inr rfl
      | cons a as =>
        have := (descend_eq_some p k (a :: as)).mp hd
        have : strictPre p k = true := by
          rw [this]
          exact strictPre_append p (a :: as) (by simp)
        rw [this] at h
        exact absurd h (by simp)
  induction fs with
  | nil =>
    unfold subtreeFs setAssoc
    rw [List.filterMap_cons]
    cases hdk with
    | inl hd => simp [hd]
    | inr hd => simp [hd]
  | cons x rest ih =>
    by_cases hx : x.1 = k
    · unfold setAssoc
      rw [if_pos hx]
      unfold subtreeFs
      rw [List.filterMap_cons, List.filterMap_cons]
      rw [hx]
      cases hdk with
      | inl hd => simp [hd]
      | inr hd => simp [hd]
    · unfold setAssoc
      rw [if_neg hx]
      unfold subtreeFs
      rw [List.filterMap_cons, List.filterMap_cons]
      have ihr := ih
      unfold subtreeFs at ihr
      rw [ihr]

theorem subtree_append_one (fs : Fs) (p q : FPath) (n : Node) (hq : q ≠ []) :
    subtreeFs (fs ++ [(p ++ q, n)]) p = subtreeFs fs p ++ [(q, n)] := by
  unfold subtreeFs
  rw [List.filterMap_append]
  congr 1
  rw [List.filterMap_cons]
  cases q with
  | nil => exact absurd rfl hq
  | cons a as => simp [descend_append]

theorem subtree_placeEntries (dest : FPath) :
    ∀ (entries : List (FPath × Node)) (fs : Fs),
    (∀ e ∈ entries, e.1 ≠ [] ∧ getAssoc fs (dest ++ e.1) = none) →
    (entries.map Prod.fst).Nodup →
    subtreeFs (placeEntries fs dest entries) dest = subtreeFs fs dest ++ entries := by
  intro entries
  induction entries with
  | nil => intro fs h hn; simp [placeEntries]
  | cons e rest ih =>
    intro fs h hn
    have he := h e (by simp)
    have hset : setAssoc fs (dest ++ e.1) e.2 = fs ++ [(dest ++ e.1, e.2)] :=
      setAssoc_of_getAssoc_none fs (dest ++ e.1) e.2 he.2
    have hstep : placeEntries fs dest (e :: rest) =
        placeEntries (fs ++ [(dest ++ e.1, e.2)]) dest rest := by
      unfold placeEntries
      rw [List.foldl_cons, hset]
    rw [hstep]
    rw [List.map_cons, List.nodup_cons] at hn
    have hconds : ∀ x ∈ rest, x.1 ≠ [] ∧
        getAssoc (fs ++ [(dest ++ e.1, e.2)]) (dest ++ x.1) = none := by
      intro x hx
      refine ⟨(h x (by simp [hx])).1, ?_⟩
      rw [getAssoc_append_none _ _ _ (h x (by simp [hx])).2]
      have hxe : x.1 ≠ e.1 := by
        intro hcontra
        exact hn.1 (by rw [← hcontra]; exact List.mem_map_of_mem Prod.fst hx)
      simp [getAssoc, append_ne_of_ne (Ne.symm hxe)]
    rw [ih (fs ++ [(dest ++ e.1, e.2)]) hconds hn.2]
    rw [subtree_append_one fs dest e.1 e.2 he.1]
    simp

theorem subtree_keys_nodup (fs : Fs) (p : FPath) (h : (fs.map Prod.fst).Nodup) :
    ((subtreeFs fs p).map Prod.fst).Nodup := by
  induction fs with
  | nil => simp [subtreeFs]
  | cons x rest ih =>
    rw [List.map_cons, List.nodup_cons] at h
    unfold subtreeFs
    rw [List.filterMap_cons]
    cases hd : descend p x.1 with
    | none => exact ih h.2
    | some r =>
      cases r with
      | nil => exact ih h.2
      | cons a as =>
        rw [List.map_cons, List.nodup_cons]
        refine ⟨?_, ih h.2⟩
        intro hmem
        have hx : x.1 = p ++ (a :: as) := (descend_eq_some p x.1 (a :: as)).mp hd
        have : p ++ (a :: as) ∈ rest.map Prod.fst := by
          rcases List.mem_map.mp hmem with ⟨e, he, hfst⟩
          have := subtree_keys_mem rest p e he
          rw [hfst] at this
          exact this
        rw [← hx] at this
        exact h.1 this

theorem aws_save_ok (P : AWSPersistor) (target : FPath) (w : S3World)
    (hdir : isdirFs w.fs target = true) :
    P.save_tar target w = Res.ok { w with
      fs := setAssoc w.fs (w.cwd ++ [baseName target ++ ".tar.gz"])
        (Node.tarArchive (baseName target)
          (subtreeFs w.fs (dirName target ++ [baseName target]))),
      objects := setAssoc w.objects (baseName target ++ ".tar.gz")
        (Node.tarArchive (baseName target)
          (subtreeFs w.fs (dirName target ++ [baseName target]))) } := by
  unfold AWSPersistor.save_tar
  rw [hdir]
  simp [getAssoc_setAssoc_self]

theorem gcs_save_ok (P : GCSPersistor) (target : FPath) (w : GCSWorld)
    (hdir : isdirFs w.fs target = true) :
    P.save_tar target w = Res.ok { w with
      fs := setAssoc w.fs (w.cwd ++ [baseName target ++ ".tar.gz"])
        (Node.tarArchive (baseName target)
          (subtreeFs w.fs (dirName target ++ [baseName target]))),
      blobs := setAssoc w.blobs (baseName target ++ ".tar.gz")
        (Node.tarArchive (baseName target)
          (subtreeFs w.fs (dirName target ++ [baseName target]))) } := by
  unfold GCSPersistor.save_tar
  rw [hdir]
  simp [getAssoc_setAssoc_self]

theorem aws_fetch_ok (P : AWSPersistor) (filename : String) (w : S3World)
    (root : String) (entries : List (FPath × Node))
    (hobj : getAssoc w.objects filename = some (Node.tarArchive root entries)) :
    P.fetch_and_extract filename w = Res.ok { w with
      fs := extractTar (setAssoc w.fs (w.cwd ++ [filename]) (Node.tarArchive root entries))
        P.data_dir root entries } := by
  unfold AWSPersistor.fetch_and_extract
  rw [hobj]
  simp [setAssoc_setAssoc_same]

theorem gcs_fetch_ok (P : GCSPersistor) (filename : String) (w : GCSWorld)
    (root : String) (entries : List (FPath × Node))
    (hobj : getAssoc w.blobs filename = some (Node.tarArchive root entries)) :
    P.fetch_and_extract filename w = Res.ok { w with
      fs := extractTar (setAssoc w.fs (w.cwd ++ [filename]) (Node.tarArchive root entries))
        P.data_dir root entries } := by
  unfold GCSPersistor.fetch_and_extract
  rw [hobj]

theorem subtree_extractTar (fs : Fs) (dataDir : FPath) (root : String)
    (entries : List (FPath × Node))
    (hclean : subtreeFs fs (dataDir ++ [root]) = [])
    (hne : ∀ e ∈ entries, e.1 ≠ [])
    (hnd : (entries.map Prod.fst).Nodup) :
    subtreeFs (extractTar fs dataDir root entries) (dataDir ++ [root]) = entries := by
  unfold extractTar
  have h0 : subtreeFs (setAssoc fs (dataDir ++ [root]) Node.dirMark) (dataDir ++ [root]) = [] := by
    rw [subtree_setAssoc_notUnder fs (dataDir ++ [root]) (dataDir ++ [root]) Node.dirMark
      (strictPre_self (dataDir ++ [root]))]
    exact hclean
  have hconds : ∀ e ∈ entries, e.1 ≠ [] ∧
      getAssoc (setAssoc fs (dataDir ++ [root]) Node.dirMark) ((dataDir ++ [root]) ++ e.1) = none := by
    intro e he
    refine ⟨hne e he, ?_⟩
    rw [getAssoc_setAssoc_ne]
    · exact getAssoc_none_of_subtree_nil fs (dataDir ++ [root]) e.1 (hne e he) hclean
    · intro hcontra
      have hnil : e.1 = ([] : FPath) :=
        append_left_cancel_path (t := dataDir ++ [root]) (by simpa using hcontra)
      exact hne e he hnil
  rw [subtree_placeEntries (dataDir ++ [root]) entries
    (setAssoc fs (dataDir ++ [root]) Node.dirMark) hconds hnd, h0]
  simp

theorem aws_roundtrip (P : AWSPersistor) (target : FPath) (w : S3World)
    (ht : target ≠ [])
    (hdir : isdirFs w.fs target = true)
    (hnd : (w.fs.map Prod.fst).Nodup)
    (hclean : subtreeFs w.fs (P.data_dir ++ [baseName target]) = [])
    (hsep : strictPre (P.data_dir ++ [baseName target])
      (w.cwd ++ [baseName target ++ ".tar.gz"]) = false) :
    ∃ w1 w2, P.save_tar target w = Res.ok w1 ∧
      P.fetch_and_extract (baseName target ++ ".tar.gz") w1 = Res.ok w2 ∧
      subtreeFs w2.fs (P.data_dir ++ [baseName target]) = subtreeFs w.fs target := by
  have hbd : dirName target ++ [baseName target] = target := dirName_append_baseName target ht
  have hsave := aws_save_ok P target w hdir
  rw [hbd] at hsave
  refine ⟨{ w with
      fs := setAssoc w.fs (w.cwd ++ [baseName target ++ ".tar.gz"])
        (Node.tarArchive (baseName target) (subtreeFs w.fs target)),
      objects := setAssoc w.objects (baseName target ++ ".tar.gz")
        (Node.tarArchive (baseName target) (subtreeFs w.fs target)) },
    { w with
      fs := extractTar (setAssoc w.fs (w.cwd ++ [baseName target ++ ".tar.gz"])
          (Node.tarArchive (baseName target) (subtreeFs w.fs target)))
        P.data_dir (baseName target) (subtreeFs w.fs target),
      objects := setAssoc w.objects (baseName target ++ ".tar.gz")
        (Node.tarArchive (baseName target) (subtreeFs w.fs target)) },
    hsave, ?_, ?_⟩
  · have hobj : getAssoc (setAssoc w.objects (baseName target ++ ".tar.gz")
        (Node.tarArchive (baseName target) (subtreeFs w.fs target)))
        (baseName target ++ ".tar.gz") =
        some (Node.tarArchive (baseName target) (subtreeFs w.fs target)) :=
      getAssoc_setAssoc_self w.objects (baseName target ++ ".tar.gz")
        (Node.tarArchive (baseName target) (subtreeFs w.fs target))
    have hfetch := aws_fetch_ok P (baseName target ++ ".tar.gz")
      { w with
        fs := setAssoc w.fs (w.cwd ++ [baseName target ++ ".tar.gz"])
          (Node.tarArchive (baseName target) (subtreeFs w.fs target)),
        objects := setAssoc w.objects (baseName target ++ ".tar.gz")
          (Node.tarArchive (baseName target) (subtreeFs w.fs target)) }
      (baseName target) (subtreeFs w.fs target) hobj
    simp only [setAssoc_setAssoc_same] at hfetch
    exact hfetch
  · have hclean2 : subtreeFs (setAssoc w.fs (w.cwd ++ [baseName target ++ ".tar.gz"])
        (Node.tarArchive (baseName target) (subtreeFs w.fs target)))
        (P.data_dir ++ [baseName target]) = [] := by
      rw [subtree_setAssoc_notUnder _ _ _ _ hsep]
      exact hclean
    exact subtree_extractTar _ _ _ _ hclean2
      (fun e he => subtree_mem_ne_nil w.fs target e he)
      (subtree_keys_nodup w.fs target hnd)

theorem gcs_roundtrip (P : GCSPersistor) (target : FPath) (w : GCSWorld)
    (ht : target ≠ [])
    (hdir : isdirFs w.fs target = true)
    (hnd : (w.fs.map Prod.fst).Nodup)
    (hclean : subtreeFs w.fs (P.data_dir ++ [baseName target]) = [])
    (hsep : strictPre (P.data_dir ++ [baseName target])
      (w.cwd ++ [baseName target ++ ".tar.gz"]) = false) :
    ∃ w1 w2, P.save_tar target w = Res.ok w1 ∧
      P.fetch_and_extract (baseName target ++ ".tar.gz") w1 = Res.ok w2 ∧
      subtreeFs w2.fs (P.data_dir ++ [baseName target]) = subtreeFs w.fs target := by
  have hbd : dirName target ++ [baseName target] = target := dirName_append_baseName target ht
  have hsave := gcs_save_ok P target w hdir
  rw [hbd] at hsave
  refine ⟨{ w with
      fs := setAssoc w.fs (w.cwd ++ [baseName target ++ ".tar.gz"])
        (Node.tarArchive (baseName target) (subtreeFs w.fs target)),
      blobs := setAssoc w.blobs (baseName target ++ ".tar.gz")
        (Node.tarArchive (baseName target) (subtreeFs w.fs target)) },
    { w with
      fs := extractTar (setAssoc w.fs (w.cwd ++ [baseName target ++ ".tar.gz"])
          (Node.tarArchive (baseName target) (subtreeFs w.fs target)))
        P.data_dir (baseName target) (subtreeFs w.fs target),
      blobs := setAssoc w.blobs (baseName target ++ ".tar.gz")
        (Node.tarArchive (baseName target) (subtreeFs w.fs target)) },
    hsave, ?_, ?_⟩
  · have hobj : getAssoc (setAssoc w.blobs (baseName target ++ ".tar.gz")
        (Node.tarArchive (baseName target) (subtreeFs w.fs target)))
        (baseName target ++ ".tar.gz") =
        some (Node.tarArchive (baseName target) (subtreeFs w.fs target)) :=
      getAssoc_setAssoc_self w.blobs (baseName target ++ ".tar.gz")
        (Node.tarArchive (baseName target) (subtreeFs w.fs target))
    have hfetch := gcs_fetch_ok P (baseName target ++ ".tar.gz")
      { w with
        fs := setAssoc w.fs (w.cwd ++ [baseName target ++ ".tar.gz"])
          (Node.tarArchive (baseName target) (subtreeFs w.fs target)),
        blobs := setAssoc w.blobs (baseName target ++ ".tar.gz")
          (Node.tarArchive (baseName target) (subtreeFs w.fs target)) }
      (baseName target) (subtreeFs w.fs target) hobj
    simp only [setAssoc_setAssoc_same] at hfetch
    exact hfetch
  · have hclean2 : subtreeFs (setAssoc w.fs (w.cwd ++ [baseName target ++ ".tar.gz"])
        (Node.tarArchive (baseName target) (subtreeFs w.fs target)))
        (P.data_dir ++ [baseName target]) = [] := by
      rw [subtree_setAssoc_notUnder _ _ _ _ hsep]
      exact hclean
    exact subtree_extractTar _ _ _ _ hclean2
      (fun e he => subtree_mem_ne_nil w.fs target e he)
      (subtree_keys_nodup w.fs target hnd)

theorem getAssoc_makeDirsAux (q : FPath) :
    ∀ (cs : List String) (fs : Fs) (done : FPath),
    (∀ c1 : List String, c1 ≠ [] → c1 <+: cs → done ++ c1 ≠ q) →
    getAssoc (makeDirsAux fs done cs) q = getAssoc fs q := by
  intro cs
  induction cs with
  | nil =>
    intro fs done h
    rfl
  | cons c rest ih =>
    intro fs done h
    unfold makeDirsAux
    have hstep : ∀ fs' : Fs,
        getAssoc (makeDirsAux fs' (done ++ [c]) rest) q = getAssoc fs' q := by
      intro fs'
      apply ih
      intro c1 hc1 hpre heq
      refine h (c :: c1) (by simp) (List.cons_prefix_cons.mpr ⟨rfl, hpre⟩) ?_
      rw [← heq]
      simp
    rw [hstep]
    by_cases he : existsFs fs (done ++ [c])
    · rw [if_pos he]
    · rw [if_neg he]
      exact getAssoc_setAssoc_ne fs (done ++ [c]) q Node.dirMark
        (Ne.symm (h [c] (by simp) ⟨rest, rfl⟩))

theorem getAssoc_makeDirs (fs : Fs) (p q : FPath) (h : ¬ q <+: p) :
    getAssoc (makeDirs fs p) q = getAssoc fs q := by
  unfold makeDirs
  apply getAssoc_makeDirsAux
  intro c1 hc1 hpre heq
  simp at heq
  exact h (heq ▸ hpre)

theorem readFileStr_setAssoc_self (fs : Fs) (p : FPath) (c : String) :
    readFileStr (setAssoc fs p (Node.bytes c)) p = some c := by
  simp [readFileStr, getAssoc_setAssoc_self]

theorem readFileStr_setAssoc_ne (fs : Fs) (p q : FPath) (n : Node) (h : q ≠ p) :
    readFileStr (setAssoc fs p n) q = readFileStr fs q := by
  simp [readFileStr, getAssoc_setAssoc_ne fs p q n h]

theorem readFileStr_dirStep (fs : Fs) (p q : FPath) (h : ¬ q <+: p) :
    readFileStr (if existsFs fs p then fs else makeDirs fs p) q = readFileStr fs q := by
  by_cases he : existsFs fs p
  · rw [if_pos he]
  · rw [if_neg he]
    simp [readFileStr, getAssoc_makeDirs fs p q h]

theorem readFileStr_writeFields_preserve (bd : FPath) (mn : String) (q : FPath) :
    ∀ (d : Doc) (fs : Fs),
    (∀ g ∈ d.map Prod.fst,
      bd ++ [mn] ++ splitFPath g ≠ q ∧ ¬ q <+: dirName (bd ++ [mn] ++ splitFPath g)) →
    readFileStr (writeFields fs bd mn d) q = readFileStr fs q := by
  intro d
  induction d with
  | nil =>
    intro fs h
    rfl
  | cons e rest ih =>
    intro fs h
    obtain ⟨g, data⟩ := e
    have hg := h g (by simp)
    simp only [writeFields]
    rw [ih _ (fun g' hg' => h g' (by simp [hg']))]
    rw [readFileStr_setAssoc_ne _ _ _ _ (Ne.symm hg.1)]
    exact readFileStr_dirStep _ _ _ hg.2

theorem readFileStr_writeFields_mem (bd : FPath) (mn : String) (f : String) (v : DocVal) :
    ∀ (d : Doc) (fs : Fs),
    (d.map Prod.fst).Nodup →
    getAssoc d f = some v →
    (∀ g ∈ d.map Prod.fst,
      ¬ (bd ++ [mn] ++ splitFPath f) <+: dirName (bd ++ [mn] ++ splitFPath g)) →
    (∀ g ∈ d.map Prod.fst, g ≠ f → bd ++ [mn] ++ splitFPath g ≠ bd ++ [mn] ++ splitFPath f) →
    readFileStr (writeFields fs bd mn d) (bd ++ [mn] ++ splitFPath f) =
      some (fieldBytes f v) := by
  intro d
  induction d with
  | nil =>
    intro fs hnd hget hp hq
    simp [getAssoc] at hget
  | cons e rest ih =>
    intro fs hnd hget hp hq
    obtain ⟨g, data⟩ := e
    rw [List.map_cons, List.nodup_cons] at hnd
    by_cases hgf : g = f
    · subst hgf
      have hv : data = v := by simpa [getAssoc] using hget
      subst hv
      have hcond : ∀ g' ∈ rest.map Prod.fst,
          bd ++ [mn] ++ splitFPath g' ≠ bd ++ [mn] ++ splitFPath g ∧
          ¬ (bd ++ [mn] ++ splitFPath g) <+: dirName (bd ++ [mn] ++ splitFPath g') := by
        intro g' hg'
        have hne : g' ≠ g := by
          intro hcontra
          exact hnd.1 (hcontra ▸ hg')
        exact ⟨hq g' (by simp [hg']) hne, hp g' (by simp [hg'])⟩
      simp only [writeFields]
      rw [readFileStr_writeFields_preserve bd mn _ rest _ hcond]
      exact readFileStr_setAssoc_self _ _ _
    · have hget' : getAssoc rest f = some v := by
        simpa [getAssoc, hgf] using hget
      simp only [writeFields]
      apply ih
      · exact hnd.2
      · exact hget'
      · intro g' hg'
        exact hp g' (by simp [hg'])
      · intro g' hg' hne
        exact hq g' (by simp [hg']) hne

theorem splitFPath_pkl : splitFPath "intent_classifier.pkl" = ["intent_classifier.pkl"] := rfl

theorem splitFPath_meta : splitFPath "metadata.json" = ["metadata.json"] := rfl

theorem splitFPath_syn : splitFPath "entity_synonyms.json" = ["entity_synonyms.json"] := rfl

theorem splitFPath_train : splitFPath "training_data.json" = ["training_data.json"] := rfl

theorem splitFPath_nercfg : splitFPath "ner/config.json" = ["ner", "config.json"] := rfl

theorem splitFPath_nermodel : splitFPath "ner/model" = ["ner", "model"] := rfl

theorem fileExtension_pkl : fileExtension "intent_classifier.pkl" = ".pkl" := rfl

theorem fileExtension_meta : fileExtension "metadata.json" = ".json" := rfl

theorem fileExtension_syn : fileExtension "entity_synonyms.json" = ".json" := rfl

theorem fileExtension_train : fileExtension "training_data.json" = ".json" := rfl

theorem fileExtension_nercfg : fileExtension "ner/config.json" = ".json" := rfl

theorem fileExtension_nermodel : fileExtension "ner/model" = "" := rfl

theorem mongo_save_doc (P : MongoDBPersistor) (target : FPath) (w : MongoWorld)
    (c1 c2 c3 c4 c5 c6 : String) (j2 j3 j4 j5 : Json)
    (hdir : isdirFs w.fs target = true)
    (h1 : readFileStr w.fs (target ++ ["intent_classifier.pkl"]) = some c1)
    (h2 : readFileStr w.fs (target ++ ["metadata.json"]) = some c2)
    (h3 : readFileStr w.fs (target ++ ["entity_synonyms.json"]) = some c3)
    (h4 : readFileStr w.fs (target ++ ["training_data.json"]) = some c4)
    (h5 : readFileStr w.fs (target ++ ["ner", "config.json"]) = some c5)
    (h6 : readFileStr w.fs (target ++ ["ner", "model"]) = some c6)
    (p2 : parseJson c2 = some j2) (p3 : parseJson c3 = some j3)
    (p4 : parseJson c4 = some j4) (p5 : parseJson c5 = some j5) :
    P.save_tar target w = Res.ok { w with
      collection := w.collection ++ [
        ("model_name", DocVal.strVal (baseName target)) ::
        ("intent_classifier.pkl", DocVal.binVal c1) ::
        ("metadata.json", DocVal.jsonVal j2) ::
        ("entity_synonyms.json", DocVal.jsonVal j3) ::
        ("training_data.json", DocVal.jsonVal j4) ::
        ("ner/config.json", DocVal.jsonVal j5) ::
        ("ner/model", DocVal.binVal c6) ::
        [("_id", DocVal.oid w.nextId)]],
      nextId := w.nextId + 1 } := by
  unfold MongoDBPersistor.save_tar
  rw [hdir]
  simp only [data_file_names, buildFields, splitFPath_pkl, splitFPath_meta,
    splitFPath_syn, splitFPath_train, splitFPath_nercfg, splitFPath_nermodel,
    fileExtension_pkl, fileExtension_meta, fileExtension_syn, fileExtension_train,
    fileExtension_nercfg, fileExtension_nermodel,
    h1, h2, h3, h4, h5, h6, p2, p3, p4, p5]
  simp [Except.map]

theorem find?_append_none {α : Type} (l₁ l₂ : List α) (p : α → Bool)
    (h : l₁.find? p = none) : (l₁ ++ l₂).find? p = l₂.find? p := by
  induction l₁ with
  | nil => simp
  | cons x rest ih =>
    by_cases hx : p x = true
    · rw [List.find?_cons_of_pos _ hx] at h
      exact absurd h (by simp)
    · have hx' : ¬ p x = true := hx
      have h' : rest.find? p = none := by
        rwa [List.find?_cons_of_neg _ hx'] at h
      rw [List.cons_append, List.find?_cons_of_neg _ hx']
      exact ih h'

theorem manifest_path_sep (bd : FPath) (mn : String) (sf sg : List String)
    (hg : sg ≠ []) (h : ¬ sf <+: sg.dropLast) :
    ¬ bd ++ [mn] ++ sf <+: dirName (bd ++ [mn] ++ sg) := by
  intro hcontra
  unfold dirName at hcontra
  rw [List.dropLast_append_of_ne_nil (bd ++ [mn]) hg] at hcontra
  rw [List.prefix_append_right_inj] at hcontra
  exact h hcontra

theorem manifest_path_ne (bd : FPath) (mn : String) (sg sf : List String)
    (h : sg ≠ sf) : bd ++ [mn] ++ sg ≠ bd ++ [mn] ++ sf := by
  intro hcontra
  exact h (append_left_cancel_path hcontra)

theorem fieldBytes_pkl (c : String) :
    fieldBytes "intent_classifier.pkl" (DocVal.binVal c) = c := rfl

theorem fieldBytes_meta (j : Json) :
    fieldBytes "metadata.json" (DocVal.jsonVal j) = dumpJson j := rfl

theorem fieldBytes_syn (j : Json) :
    fieldBytes "entity_synonyms.json" (DocVal.jsonVal j) = dumpJson j := rfl

theorem fieldBytes_train (j : Json) :
    fieldBytes "training_data.json" (DocVal.jsonVal j) = dumpJson j := rfl

theorem fieldBytes_nercfg (j : Json) :
    fieldBytes "ner/config.json" (DocVal.jsonVal j) = dumpJson j := rfl

theorem fieldBytes_nermodel (c : String) :
    fieldBytes "ner/model" (DocVal.binVal c) = c := rfl

theorem mongo_written_reads (bd : FPath) (mn : String) (fs : Fs)
    (c1 c6 : String) (j2 j3 j4 j5 : Json) :
    readFileStr (writeFields fs bd mn
        (("intent_classifier.pkl", DocVal.binVal c1) ::
         ("metadata.json", DocVal.jsonVal j2) ::
         ("entity_synonyms.json", DocVal.jsonVal j3) ::
         ("training_data.json", DocVal.jsonVal j4) ::
         ("ner/config.json", DocVal.jsonVal j5) ::
         [("ner/model", DocVal.binVal c6)]))
      (bd ++ [mn] ++ ["intent_classifier.pkl"]) = some c1 ∧
    readFileStr (writeFields fs bd mn
        (("intent_classifier.pkl", DocVal.binVal c1) ::
         ("metadata.json", DocVal.jsonVal j2) ::
         ("entity_synonyms.json", DocVal.jsonVal j3) ::
         ("training_data.json", DocVal.jsonVal j4) ::
         ("ner/config.json", DocVal.jsonVal j5) ::
         [("ner/model", DocVal.binVal c6)]))
      (bd ++ [mn] ++ ["metadata.json"]) = some (dumpJson j2) ∧
    readFileStr (writeFields fs bd mn
        (("intent_classifier.pkl", DocVal.binVal c1) ::
         ("metadata.json", DocVal.jsonVal j2) ::
         ("entity_synonyms.json", DocVal.jsonVal j3) ::
         ("training_data.json", DocVal.jsonVal j4) ::
         ("ner/config.json", DocVal.jsonVal j5) ::
         [("ner/model", DocVal.binVal c6)]))
      (bd ++ [mn] ++ ["entity_synonyms.json"]) = some (dumpJson j3) ∧
    readFileStr (writeFields fs bd mn
        (("intent_classifier.pkl", DocVal.binVal c1) ::
         ("metadata.json", DocVal.jsonVal j2) ::
         ("entity_synonyms.json", DocVal.jsonVal j3) ::
         ("training_data.json", DocVal.jsonVal j4) ::
         ("ner/config.json", DocVal.jsonVal j5) ::
         [("ner/model", DocVal.binVal c6)]))
      (bd ++ [mn] ++ ["training_data.json"]) = some (dumpJson j4) ∧
    readFileStr (writeFields fs bd mn
        (("intent_classifier.pkl", DocVal.binVal c1) ::
         ("metadata.json", DocVal.jsonVal j2) ::
         ("entity_synonyms.json", DocVal.jsonVal j3) ::
         ("training_data.json", DocVal.jsonVal j4) ::
         ("ner/config.json", DocVal.jsonVal j5) ::
         [("ner/model", DocVal.binVal c6)]))
      (bd ++ [mn] ++ ["ner", "config.json"]) = some (dumpJson j5) ∧
    readFileStr (writeFields fs bd mn
        (("intent_classifier.pkl", DocVal.binVal c1) ::
         ("metadata.json", DocVal.jsonVal j2) ::
         ("entity_synonyms.json", DocVal.jsonVal j3) ::
         ("training_data.json", DocVal.jsonVal j4) ::
         ("ner/config.json", DocVal.jsonVal j5) ::
         [("ner/model", DocVal.binVal c6)]))
      (bd ++ [mn] ++ ["ner", "model"]) = some c6 := by
  have hnodup : (((("intent_classifier.pkl", DocVal.binVal c1) ::
         ("metadata.json", DocVal.jsonVal j2) ::
         ("entity_synonyms.json", DocVal.jsonVal j3) ::
         ("training_data.json", DocVal.jsonVal j4) ::
         ("ner/config.json", DocVal.jsonVal j5) ::
         [("ner/model", DocVal.binVal c6)]) : Doc).map Prod.fst).Nodup := by
    simp
  refine ⟨?_, ?_, ?_, ?_, ?_, ?_⟩
  · have hm := readFileStr_writeFields_mem bd mn "intent_classifier.pkl"
        (DocVal.binVal c1)
        (("intent_classifier.pkl", DocVal.binVal c1) ::
          ("metadata.json", DocVal.jsonVal j2) ::
          ("entity_synonyms.json", DocVal.jsonVal j3) ::
          ("training_data.json", DocVal.jsonVal j4) ::
          ("ner/config.json", DocVal.jsonVal j5) ::
          [("ner/model", DocVal.binVal c6)]) fs hnodup (by simp [getAssoc])
        (by intro g hg
            simp at hg
            rcases hg with rfl | rfl | rfl | rfl | rfl | rfl <;>
              simp only [splitFPath_pkl, splitFPath_meta, splitFPath_syn,
                splitFPath_train, splitFPath_nercfg, splitFPath_nermodel] <;>
              (apply manifest_path_sep <;> simp))
        (by intro g hg hne
            simp at hg
            rcases hg with rfl | rfl | rfl | rfl | rfl | rfl <;>
              first
              | exact absurd rfl hne
              | (simp only [splitFPath_pkl, splitFPath_meta, splitFPath_syn,
                   splitFPath_train, splitFPath_nercfg, splitFPath_nermodel]
                 apply manifest_path_ne
                 decide))
    simp only [splitFPath_pkl, fieldBytes_pkl] at hm
    exact hm
  · have hm := readFileStr_writeFields_mem bd mn "metadata.json"
        (DocVal.jsonVal j2)
        (("intent_classifier.pkl", DocVal.binVal c1) ::
          ("metadata.json", DocVal.jsonVal j2) ::
          ("entity_synonyms.json", DocVal.jsonVal j3) ::
          ("training_data.json", DocVal.jsonVal j4) ::
          ("ner/config.json", DocVal.jsonVal j5) ::
          [("ner/model", DocVal.binVal c6)]) fs hnodup (by simp [getAssoc])
        (by intro g hg
            simp at hg
            rcases hg with rfl | rfl | rfl | rfl | rfl | rfl <;>
              simp only [splitFPath_pkl, splitFPath_meta, splitFPath_syn,
                splitFPath_train, splitFPath_nercfg, splitFPath_nermodel] <;>
              (apply manifest_path_sep <;> simp))
        (by intro g hg hne
            simp at hg
            rcases hg with rfl | rfl | rfl | rfl | rfl | rfl <;>
              first
              | exact absurd rfl hne
              | (simp only [splitFPath_pkl, splitFPath_meta, splitFPath_syn,
                   splitFPath_train, splitFPath_nercfg, splitFPath_nermodel]
                 apply manifest_path_ne
                 decide))
    simp only [splitFPath_meta, fieldBytes_meta] at hm
    exact hm
  · have hm := readFileStr_writeFields_mem bd mn "entity_synonyms.json"
        (DocVal.jsonVal j3)
        (("intent_classifier.pkl", DocVal.binVal c1) ::
          ("metadata.json", DocVal.jsonVal j2) ::
          ("entity_synonyms.json", DocVal.jsonVal j3) ::
          ("training_data.json", DocVal.jsonVal j4) ::
          ("ner/config.json", DocVal.jsonVal j5) ::
          [("ner/model", DocVal.binVal c6)]) fs hnodup (by simp [getAssoc])
        (by intro g hg
            simp at hg
            rcases hg with rfl | rfl | rfl | rfl | rfl | rfl <;>
              simp only [splitFPath_pkl, splitFPath_meta, splitFPath_syn,
                splitFPath_train, splitFPath_nercfg, splitFPath_nermodel] <;>
              (apply manifest_path_sep <;> simp))
        (by intro g hg hne
            simp at hg
            rcases hg with rfl | rfl | rfl | rfl | rfl | rfl <;>
              first
              | exact absurd rfl hne
              | (simp only [splitFPath_pkl, splitFPath_meta, splitFPath_syn,
                   splitFPath_train, splitFPath_nercfg, splitFPath_nermodel]
                 apply manifest_path_ne
                 decide))
    simp only [splitFPath_syn, fieldBytes_syn] at hm
    exact hm
  · have hm := readFileStr_writeFields_mem bd mn "training_data.json"
        (DocVal.jsonVal j4)
        (("intent_classifier.pkl", DocVal.binVal c1) ::
          ("metadata.json", DocVal.jsonVal j2) ::
          ("entity_synonyms.json", DocVal.jsonVal j3) ::
          ("training_data.json", DocVal.jsonVal j4) ::
          ("ner/config.json", DocVal.jsonVal j5) ::
          [("ner/model", DocVal.binVal c6)]) fs hnodup (by simp [getAssoc])
        (by intro g hg
            simp at hg
            rcases hg with rfl | rfl | rfl | rfl | rfl | rfl <;>
              simp only [splitFPath_pkl, splitFPath_meta, splitFPath_syn,
                splitFPath_train, splitFPath_nercfg, splitFPath_nermodel] <;>
              (apply manifest_path_sep <;> simp))
        (by intro g hg hne
            simp at hg
            rcases hg with rfl | rfl | rfl | rfl | rfl | rfl <;>
              first
              | exact absurd rfl hne
              | (simp only [splitFPath_pkl, splitFPath_meta, splitFPath_syn,
                   splitFPath_train, splitFPath_nercfg, splitFPath_nermodel]
                 apply manifest_path_ne
                 decide))
    simp only [splitFPath_train, fieldBytes_train] at hm
    exact hm
  · have hm := readFileStr_writeFields_mem bd mn "ner/config.json"
        (DocVal.jsonVal j5)
        (("intent_classifier.pkl", DocVal.binVal c1) ::
          ("metadata.json", DocVal.jsonVal j2) ::
          ("entity_synonyms.json", DocVal.jsonVal j3) ::
          ("training_data.json", DocVal.jsonVal j4) ::
          ("ner/config.json", DocVal.jsonVal j5) ::
          [("ner/model", DocVal.binVal c6)]) fs hnodup (by simp [getAssoc])
        (by intro g hg
            simp at hg
            rcases hg with rfl | rfl | rfl | rfl | rfl | rfl <;>
              simp only [splitFPath_pkl, splitFPath_meta, splitFPath_syn,
                splitFPath_train, splitFPath_nercfg, splitFPath_nermodel] <;>
              (apply manifest_path_sep <;> simp))
        (by intro g hg hne
            simp at hg
            rcases hg with rfl | rfl | rfl | rfl | rfl | rfl <;>
              first
              | exact absurd rfl hne
              | (simp only [splitFPath_pkl, splitFPath_meta, splitFPath_syn,
                   splitFPath_train, splitFPath_nercfg, splitFPath_nermodel]
                 apply manifest_path_ne
                 decide))
    simp only [splitFPath_nercfg, fieldBytes_nercfg] at hm
    exact hm
  · have hm := readFileStr_writeFields_mem bd mn "ner/model"
        (DocVal.binVal c6)
        (("intent_classifier.pkl", DocVal.binVal c1) ::
          ("metadata.json", DocVal.jsonVal j2) ::
          ("entity_synonyms.json", DocVal.jsonVal j3) ::
          ("training_data.json", DocVal.jsonVal j4) ::
          ("ner/config.json", DocVal.jsonVal j5) ::
          [("ner/model", DocVal.binVal c6)]) fs hnodup (by simp [getAssoc])
        (by intro g hg
            simp at hg
            rcases hg with rfl | rfl | rfl | rfl | rfl | rfl <;>
              simp only [splitFPath_pkl, splitFPath_meta, splitFPath_syn,
                splitFPath_train, splitFPath_nercfg, splitFPath_nermodel] <;>
              (apply manifest_path_sep <;> simp))
        (by intro g hg hne
            simp at hg
            rcases hg with rfl | rfl | rfl | rfl | rfl | rfl <;>
              first
              | exact absurd rfl hne
              | (simp only [splitFPath_pkl, splitFPath_meta, splitFPath_syn,
                   splitFPath_train, splitFPath_nercfg, splitFPath_nermodel]
                 apply manifest_path_ne
                 decide))
    simp only [splitFPath_nermodel, fieldBytes_nermodel] at hm
    exact hm

set_option maxHeartbeats 1000000 in
theorem mongo_roundtrip (P : MongoDBPersistor) (target : FPath) (w : MongoWorld)
    (c1 c2 c3 c4 c5 c6 : String) (j2 j3 j4 j5 : Json)
    (ht : target ≠ [])
    (hdir : isdirFs w.fs target = true)
    (h1 : readFileStr w.fs (target ++ ["intent_classifier.pkl"]) = some c1)
    (h2 : readFileStr w.fs (target ++ ["metadata.json"]) = some c2)
    (h3 : readFileStr w.fs (target ++ ["entity_synonyms.json"]) = some c3)
    (h4 : readFileStr w.fs (target ++ ["training_data.json"]) = some c4)
    (h5 : readFileStr w.fs (target ++ ["ner", "config.json"]) = some c5)
    (h6 : readFileStr w.fs (target ++ ["ner", "model"]) = some c6)
    (p2 : parseJson c2 = some j2) (p3 : parseJson c3 = some j3)
    (p4 : parseJson c4 = some j4) (p5 : parseJson c5 = some j5)
    (hfresh : w.collection.find? (fun d => docMatches d (baseName target)) = none) :
    ∃ w1 w2, P.save_tar target w = Res.ok w1 ∧
      P.fetch_and_extract target w1 = Res.ok w2 ∧
      readFileStr w2.fs (target ++ ["intent_classifier.pkl"]) = some c1 ∧
      readFileStr w2.fs (target ++ ["metadata.json"]) = some (dumpJson j2) ∧
      readFileStr w2.fs (target ++ ["entity_synonyms.json"]) = some (dumpJson j3) ∧
      readFileStr w2.fs (target ++ ["training_data.json"]) = some (dumpJson j4) ∧
      readFileStr w2.fs (target ++ ["ner", "config.json"]) = some (dumpJson j5) ∧
      readFileStr w2.fs (target ++ ["ner", "model"]) = some c6 := by
  have hbd : dirName target ++ [baseName target] = target := dirName_append_baseName target ht
  have hsave := mongo_save_doc P target w c1 c2 c3 c4 c5 c6 j2 j3 j4 j5 hdir
    h1 h2 h3 h4 h5 h6 p2 p3 p4 p5
  have hfetch : P.fetch_and_extract target
      { w with
        collection := w.collection ++ [
          ("model_name", DocVal.strVal (baseName target)) ::
          ("intent_classifier.pkl", DocVal.binVal c1) ::
          ("metadata.json", DocVal.jsonVal j2) ::
          ("entity_synonyms.json", DocVal.jsonVal j3) ::
          ("training_data.json", DocVal.jsonVal j4) ::
          ("ner/config.json", DocVal.jsonVal j5) ::
          ("ner/model", DocVal.binVal c6) ::
          [("_id", DocVal.oid w.nextId)]],
        nextId := w.nextId + 1 } =
      Res.ok { w with
        fs := writeFields w.fs (dirName target) (baseName target)
          (("intent_classifier.pkl", DocVal.binVal c1) ::
           ("metadata.json", DocVal.jsonVal j2) ::
           ("entity_synonyms.json", DocVal.jsonVal j3) ::
           ("training_data.json", DocVal.jsonVal j4) ::
           ("ner/config.json", DocVal.jsonVal j5) ::
           [("ner/model", DocVal.binVal c6)]),
        collection := w.collection ++ [
          ("model_name", DocVal.strVal (baseName target)) ::
          ("intent_classifier.pkl", DocVal.binVal c1) ::
          ("metadata.json", DocVal.jsonVal j2) ::
          ("entity_synonyms.json", DocVal.jsonVal j3) ::
          ("training_data.json", DocVal.jsonVal j4) ::
          ("ner/config.json", DocVal.jsonVal j5) ::
          ("ner/model", DocVal.binVal c6) ::
          [("_id", DocVal.oid w.nextId)]],
        nextId := w.nextId + 1 } := by
    simp only [MongoDBPersistor.fetch_and_extract]
    rw [find?_append_none _ _ _ hfresh]
    simp [List.find?, docMatches, getAssoc, eraseKey]
  have hreads := mongo_written_reads (dirName target) (baseName target) w.fs c1 c6 j2 j3 j4 j5
  rw [hbd] at hreads
  exact ⟨_, _, hsave, hfetch, hreads.1, hreads.2.1, hreads.2.2.1, hreads.2.2.2.1,
    hreads.2.2.2.2.1, hreads.2.2.2.2.2⟩

theorem buildFields_error_of_missing :
    ∀ (l : List String) (fs : Fs) (target : FPath),
    (∃ f ∈ l, readFileStr fs (target ++ splitFPath f) = none) →
    ∃ e, buildFields fs target l = Except.error e ∧ readErrKind e = true := by
  intro l
  induction l with
  | nil =>
    intro fs target h
    simp at h
  | cons f0 rest ih =>
    intro fs target h
    simp only [buildFields]
    cases hr : readFileStr fs (target ++ splitFPath f0) with
    | none => exact ⟨PErr.fileNotFound (target ++ splitFPath f0), rfl, rfl⟩
    | some content =>
      have hrest : ∃ f ∈ rest, readFileStr fs (target ++ splitFPath f) = none := by
        rcases h with ⟨f, hf, hnone⟩
        rcases List.mem_cons.mp hf with heq | hmem
        · subst heq
          rw [hr] at hnone
          exact absurd hnone (by simp)
        · exact ⟨f, hmem, hnone⟩
      dsimp only
      by_cases hj : fileExtension f0 = ".json"
      · rw [if_pos hj]
        cases hp : parseJson content with
        | none => exact ⟨PErr.jsonError (target ++ splitFPath f0), rfl, rfl⟩
        | some j =>
          rcases ih fs target hrest with ⟨e, he, hk⟩
          refine ⟨e, ?_, hk⟩
          rw [he]
          rfl
      · rw [if_neg hj]
        rcases ih fs target hrest with ⟨e, he, hk⟩
        refine ⟨e, ?_, hk⟩
        rw [he]
        rfl

theorem isPrefixOf_append_self (p q : FPath) : p.isPrefixOf (p ++ q) = true := by
  induction p with
  | nil => simp [List.isPrefixOf]
  | cons a as ih => simp [List.isPrefixOf, ih]

theorem getAssoc_placeEntries_notPre (dest k : FPath) (h : dest.isPrefixOf k = false) :
    ∀ (entries : List (FPath × Node)) (fs : Fs),
    getAssoc (placeEntries fs dest entries) k = getAssoc fs k := by
  intro entries
  induction entries with
  | nil =>
    intro fs
    rfl
  | cons e rest ih =>
    intro fs
    have hstep : placeEntries fs dest (e :: rest) =
        placeEntries (setAssoc fs (dest ++ e.1) e.2) dest rest := by
      unfold placeEntries
      rw [List.foldl_cons]
    rw [hstep, ih]
    apply getAssoc_setAssoc_ne
    intro hcontra
    rw [hcontra, isPrefixOf_append_self] at h
    exact absurd h (by simp)

theorem getAssoc_extractTar_other (fs : Fs) (dataDir : FPath) (root : String)
    (entries : List (FPath × Node)) (k : FPath)
    (h : (dataDir ++ [root]).isPrefixOf k = false) :
    getAssoc (extractTar fs dataDir root entries) k = getAssoc fs k := by
  unfold extractTar
  rw [getAssoc_placeEntries_notPre (dataDir ++ [root]) k h]
  apply getAssoc_setAssoc_ne
  intro hcontra
  rw [hcontra] at h
  have : (dataDir ++ [root]).isPrefixOf (dataDir ++ [root]) = true := by
    have h2 := isPrefixOf_append_self (dataDir ++ [root]) []
    rw [List.append_nil] at h2
    exact h2
  rw [this] at h
  exact absurd h (by simp)

/-- C2: save (save_tar) on a nonexistent or non-directory path fails in all
three backends with a ValueError (invalid input), and the error state is the
input state itself, so no remote-store operation was performed: the objects,
blobs and collection are exactly as before the call. -/
theorem save_rejects_missing_directory :
    (∀ (aP : AWSPersistor) (target : FPath) (wa : S3World),
      isdirFs wa.fs target = false →
      aP.save_tar target wa = Res.err (PErr.valueError
        ("Target directory \x27" ++ joinFPath target ++ "\x27 not found.")) wa) ∧
    (∀ (gP : GCSPersistor) (target : FPath) (wg : GCSWorld),
      isdirFs wg.fs target = false →
      gP.save_tar target wg = Res.err (PErr.valueError
        ("target_dir \x27" ++ joinFPath target ++ "\x27 not found.")) wg) ∧
    (∀ (mP : MongoDBPersistor) (target : FPath) (wm : MongoWorld),
      isdirFs wm.fs target = false →
      mP.save_tar target wm = Res.err (PErr.valueError
        ("Target directory \x27" ++ joinFPath target ++ "\x27 not found.")) wm) := by
  refine ⟨?_, ?_, ?_⟩
  · intro aP target wa h
    simp [AWSPersistor.save_tar, h]
  · intro gP target wg h
    simp [GCSPersistor.save_tar, h]
  · intro mP target wm h
    simp [MongoDBPersistor.save_tar, h]

/-- Witness for C2 at a concrete missing path. -/
theorem save_rejects_missing_directory_witness :
    isdirFs ([] : Fs) ["missing"] = false ∧
    AWSPersistor.save_tar ⟨["data"], "bucket"⟩ ["missing"]
      { fs := [], cwd := [], objects := [] } =
      Res.err (PErr.valueError
        ("Target directory \x27" ++ joinFPath ["missing"] ++ "\x27 not found."))
        { fs := [], cwd := [], objects := [] } ∧
    GCSPersistor.save_tar ⟨["data"], "bucket"⟩ ["missing"]
      { fs := [], cwd := [], blobs := [] } =
      Res.err (PErr.valueError
        ("target_dir \x27" ++ joinFPath ["missing"] ++ "\x27 not found."))
        { fs := [], cwd := [], blobs := [] } ∧
    MongoDBPersistor.save_tar ⟨"mongodb://localhost", "models"⟩ ["missing"]
      { fs := [], cwd := [], collection := [], nextId := 0 } =
      Res.err (PErr.valueError
        ("Target directory \x27" ++ joinFPath ["missing"] ++ "\x27 not found."))
        { fs := [], cwd := [], collection := [], nextId := 0 } :=
  ⟨rfl,
   save_rejects_missing_directory.1 ⟨["data"], "bucket"⟩ ["missing"] _ rfl,
   save_rejects_missing_directory.2.1 ⟨["data"], "bucket"⟩ ["missing"] _ rfl,
   save_rejects_missing_directory.2.2 ⟨"mongodb://localhost", "models"⟩ ["missing"] _ rfl⟩

/-- C4: when the configuration lacks the storage key, get_persistor raises a
KeyError whose message names the missing persistent-storage setting and lists
the three valid backend identifiers aws, gcs and mongodb. -/
theorem get_persistor_missing_storage (config : Config)
    (h : getAssoc config "storage" = none) :
    get_persistor config = Except.error (PErr.keyError
      "No persistent storage specified. Supported values are aws, gcs, mongodb") := by
  unfold get_persistor
  rw [h]

/-- Witness for C4 at a concrete storage-less configuration. -/
theorem get_persistor_missing_storage_witness :
    getAssoc ([("path", "/models")] : Config) "storage" = none ∧
    get_persistor [("path", "/models")] = Except.error (PErr.keyError
      "No persistent storage specified. Supported values are aws, gcs, mongodb") :=
  ⟨rfl, get_persistor_missing_storage [("path", "/models")] rfl⟩

/-- C5: when the storage key is present but holds none of the three
recognized identifiers, get_persistor returns no persistor (the initial
None) instead of raising. -/
theorem get_persistor_unrecognized_returns_none (config : Config) (v : String)
    (h : getAssoc config "storage" = some v)
    (h1 : v ≠ "aws") (h2 : v ≠ "gcs") (h3 : v ≠ "mongodb") :
    get_persistor config = Except.ok none := by
  unfold get_persistor
  rw [h]
  simp [h1, h2, h3]
  rfl

/-- Witness for C5 at a concrete unrecognized backend identifier. -/
theorem get_persistor_unrecognized_returns_none_witness :
    getAssoc ([("storage", "ftp")] : Config) "storage" = some "ftp" ∧
    get_persistor [("storage", "ftp")] = Except.ok none :=
  ⟨rfl, get_persistor_unrecognized_returns_none [("storage", "ftp")] "ftp" rfl
    (by decide) (by decide) (by decide)⟩

/-- C6: on a directory holding the whole manifest, the document-store save
inserts exactly one document whose model_name field is the base name of the
directory and which holds, under a key equal to each relative manifest path,
the parsed JSON structure for json-extension entries and the raw bytes as a
binary field otherwise (the driver appends the fresh document id). -/
theorem mongo_save_document_fields (P : MongoDBPersistor) (target : FPath)
    (w : MongoWorld) (c1 c2 c3 c4 c5 c6 : String) (j2 j3 j4 j5 : Json)
    (hdir : isdirFs w.fs target = true)
    (h1 : readFileStr w.fs (target ++ ["intent_classifier.pkl"]) = some c1)
    (h2 : readFileStr w.fs (target ++ ["metadata.json"]) = some c2)
    (h3 : readFileStr w.fs (target ++ ["entity_synonyms.json"]) = some c3)
    (h4 : readFileStr w.fs (target ++ ["training_data.json"]) = some c4)
    (h5 : readFileStr w.fs (target ++ ["ner", "config.json"]) = some c5)
    (h6 : readFileStr w.fs (target ++ ["ner", "model"]) = some c6)
    (p2 : parseJson c2 = some j2) (p3 : parseJson c3 = some j3)
    (p4 : parseJson c4 = some j4) (p5 : parseJson c5 = some j5) :
    P.save_tar target w = Res.ok { w with
      collection := w.collection ++ [
        ("model_name", DocVal.strVal (baseName target)) ::
        ("intent_classifier.pkl", DocVal.binVal c1) ::
        ("metadata.json", DocVal.jsonVal j2) ::
        ("entity_synonyms.json", DocVal.jsonVal j3) ::
        ("training_data.json", DocVal.jsonVal j4) ::
        ("ner/config.json", DocVal.jsonVal j5) ::
        ("ner/model", DocVal.binVal c6) ::
        [("_id", DocVal.oid w.nextId)]],
      nextId := w.nextId + 1 } :=
  mongo_save_doc P target w c1 c2 c3 c4 c5 c6 j2 j3 j4 j5 hdir
    h1 h2 h3 h4 h5 h6 p2 p3 p4 p5

/-- Witness for C6 at the concrete example bundle. -/
theorem mongo_save_document_fields_witness :
    isdirFs exampleMongoWorld.fs ["m"] = true ∧
    MongoDBPersistor.save_tar ⟨"mongodb://localhost", "models"⟩ ["m"]
      exampleMongoWorld = Res.ok { exampleMongoWorld with
        collection := exampleMongoWorld.collection ++ [
          ("model_name", DocVal.strVal (baseName ["m"])) ::
          ("intent_classifier.pkl", DocVal.binVal "P") ::
          ("metadata.json", DocVal.jsonVal (Json.num 1)) ::
          ("entity_synonyms.json", DocVal.jsonVal (Json.arr [])) ::
          ("training_data.json", DocVal.jsonVal (Json.num 0)) ::
          ("ner/config.json", DocVal.jsonVal (Json.num 1)) ::
          ("ner/model", DocVal.binVal "M") ::
          [("_id", DocVal.oid exampleMongoWorld.nextId)]],
        nextId := exampleMongoWorld.nextId + 1 } :=
  ⟨rfl, mongo_save_document_fields ⟨"mongodb://localhost", "models"⟩ ["m"]
    exampleMongoWorld "P" " 1" "[]" "0" "1" "M"
    (Json.num 1) (Json.arr []) (Json.num 0) (Json.num 1)
    rfl rfl rfl rfl rfl rfl rfl rfl rfl rfl rfl⟩

/-- C7: on an existing directory missing at least one manifest file, the
document-store save fails with a read error (failed open or failed JSON
decode) and the error state is the input state itself, so no document, not
even a partial one, was inserted into the collection. -/
theorem mongo_save_missing_manifest_fails (P : MongoDBPersistor) (target : FPath)
    (w : MongoWorld) (hdir : isdirFs w.fs target = true)
    (hmiss : ∃ f ∈ data_file_names, readFileStr w.fs (target ++ splitFPath f) = none) :
    ∃ e, P.save_tar target w = Res.err e w ∧ readErrKind e = true := by
  rcases buildFields_error_of_missing data_file_names w.fs target hmiss with ⟨e, he, hk⟩
  refine ⟨e, ?_, hk⟩
  simp [MongoDBPersistor.save_tar, hdir, he]

/-- Witness for C7 at a bundle holding only its metadata file. -/
theorem mongo_save_missing_manifest_fails_witness :
    isdirFs [(["m", "metadata.json"], Node.bytes "1")] ["m"] = true ∧
    (∃ f ∈ data_file_names,
      readFileStr [(["m", "metadata.json"], Node.bytes "1")] (["m"] ++ splitFPath f) = none) ∧
    (∃ e, MongoDBPersistor.save_tar ⟨"mongodb://localhost", "models"⟩ ["m"]
        { fs := [(["m", "metadata.json"], Node.bytes "1")],
          cwd := [],
          collection := [],
          nextId := 0 } =
      Res.err e
        { fs := [(["m", "metadata.json"], Node.bytes "1")],
          cwd := [],
          collection := [],
          nextId := 0 } ∧ readErrKind e = true) :=
  ⟨rfl, ⟨"intent_classifier.pkl", by simp [data_file_names], rfl⟩,
   mongo_save_missing_manifest_fails ⟨"mongodb://localhost", "models"⟩ ["m"] _ rfl
     ⟨"intent_classifier.pkl", by simp [data_file_names], rfl⟩⟩

/-- C8: a successful object-store save uploads the archive under a key equal
to the base name of the saved directory followed by the gzipped-tar archive
extension, in both provider variants. -/
theorem object_store_save_uploads_basename_key :
    (∀ (P : AWSPersistor) (target : FPath) (w : S3World),
      isdirFs w.fs target = true →
      ∃ w1, P.save_tar target w = Res.ok w1 ∧
        getAssoc w1.objects (baseName target ++ ".tar.gz") =
          some (Node.tarArchive (baseName target)
            (subtreeFs w.fs (dirName target ++ [baseName target])))) ∧
    (∀ (P : GCSPersistor) (target : FPath) (w : GCSWorld),
      isdirFs w.fs target = true →
      ∃ w1, P.save_tar target w = Res.ok w1 ∧
        getAssoc w1.blobs (baseName target ++ ".tar.gz") =
          some (Node.tarArchive (baseName target)
            (subtreeFs w.fs (dirName target ++ [baseName target])))) := by
  constructor
  · intro P target w h
    exact ⟨_, aws_save_ok P target w h, getAssoc_setAssoc_self _ _ _⟩
  · intro P target w h
    exact ⟨_, gcs_save_ok P target w h, getAssoc_setAssoc_self _ _ _⟩

/-- Witness for C8 at a concrete bundle directory named model_v1. -/
theorem object_store_save_uploads_basename_key_witness :
    isdirFs [(["model_v1", "metadata.json"], Node.bytes "x")] ["model_v1"] = true ∧
    (∃ w1, AWSPersistor.save_tar ⟨["data"], "bucket"⟩ ["model_v1"]
        { fs := [(["model_v1", "metadata.json"], Node.bytes "x")],
          cwd := [],
          objects := [] } = Res.ok w1 ∧
      getAssoc w1.objects (baseName ["model_v1"] ++ ".tar.gz") =
        some (Node.tarArchive (baseName ["model_v1"])
          (subtreeFs [(["model_v1", "metadata.json"], Node.bytes "x")]
            (dirName ["model_v1"] ++ [baseName ["model_v1"]])))) ∧
    (∃ w1, GCSPersistor.save_tar ⟨["data"], "bucket"⟩ ["model_v1"]
        { fs := [(["model_v1", "metadata.json"], Node.bytes "x")],
          cwd := [],
          blobs := [] } = Res.ok w1 ∧
      getAssoc w1.blobs (baseName ["model_v1"] ++ ".tar.gz") =
        some (Node.tarArchive (baseName ["model_v1"])
          (subtreeFs [(["model_v1", "metadata.json"], Node.bytes "x")]
            (dirName ["model_v1"] ++ [baseName ["model_v1"]])))) :=
  ⟨rfl,
   object_store_save_uploads_basename_key.1 ⟨["data"], "bucket"⟩ ["model_v1"] _ rfl,
   object_store_save_uploads_basename_key.2 ⟨["data"], "bucket"⟩ ["model_v1"] _ rfl⟩

/-- C10: the local tarball an object-store save produces is written at a
relative path with a single component, the directory base name plus the
archive extension, resolved against the working directory; it does not
depend on the location of the target directory or on the configured data
directory, and it is still present in the final state after the upload. -/
theorem object_store_save_tarball_in_cwd :
    (∀ (P : AWSPersistor) (target : FPath) (w : S3World),
      isdirFs w.fs target = true →
      ∃ w1, P.save_tar target w = Res.ok w1 ∧ w1.cwd = w.cwd ∧
        w1.fs = setAssoc w.fs (w.cwd ++ [baseName target ++ ".tar.gz"])
          (Node.tarArchive (baseName target)
            (subtreeFs w.fs (dirName target ++ [baseName target]))) ∧
        getAssoc w1.fs (w.cwd ++ [baseName target ++ ".tar.gz"]) =
          some (Node.tarArchive (baseName target)
            (subtreeFs w.fs (dirName target ++ [baseName target])))) ∧
    (∀ (P : GCSPersistor) (target : FPath) (w : GCSWorld),
      isdirFs w.fs target = true →
      ∃ w1, P.save_tar target w = Res.ok w1 ∧ w1.cwd = w.cwd ∧
        w1.fs = setAssoc w.fs (w.cwd ++ [baseName target ++ ".tar.gz"])
          (Node.tarArchive (baseName target)
            (subtreeFs w.fs (dirName target ++ [baseName target]))) ∧
        getAssoc w1.fs (w.cwd ++ [baseName target ++ ".tar.gz"]) =
          some (Node.tarArchive (baseName target)
            (subtreeFs w.fs (dirName target ++ [baseName target])))) := by
  constructor
  · intro P target w h
    exact ⟨_, aws_save_ok P target w h, rfl, rfl, getAssoc_setAssoc_self _ _ _⟩
  · intro P target w h
    exact ⟨_, gcs_save_ok P target w h, rfl, rfl, getAssoc_setAssoc_self _ _ _⟩

/-- Witness for C10: the bundle lives under a nested directory and the data
directory is elsewhere, yet the tarball lands at the single-component
working-directory path. -/
theorem object_store_save_tarball_in_cwd_witness :
    isdirFs [(["tmp", "work", "m", "a.bin"], Node.bytes "x")] ["tmp", "work", "m"] = true ∧
    (∃ w1, AWSPersistor.save_tar ⟨["data", "root"], "bucket"⟩ ["tmp", "work", "m"]
        { fs := [(["tmp", "work", "m", "a.bin"], Node.bytes "x")],
          cwd := ["home"],
          objects := [] } = Res.ok w1 ∧ w1.cwd = ["home"] ∧
      w1.fs = setAssoc [(["tmp", "work", "m", "a.bin"], Node.bytes "x")]
          (["home"] ++ [baseName ["tmp", "work", "m"] ++ ".tar.gz"])
          (Node.tarArchive (baseName ["tmp", "work", "m"])
            (subtreeFs [(["tmp", "work", "m", "a.bin"], Node.bytes "x")]
              (dirName ["tmp", "work", "m"] ++ [baseName ["tmp", "work", "m"]]))) ∧
      getAssoc w1.fs (["home"] ++ [baseName ["tmp", "work", "m"] ++ ".tar.gz"]) =
        some (Node.tarArchive (baseName ["tmp", "work", "m"])
          (subtreeFs [(["tmp", "work", "m", "a.bin"], Node.bytes "x")]
            (dirName ["tmp", "work", "m"] ++ [baseName ["tmp", "work", "m"]])))) ∧
    (∃ w1, GCSPersistor.save_tar ⟨["data", "root"], "bucket"⟩ ["tmp", "work", "m"]
        { fs := [(["tmp", "work", "m", "a.bin"], Node.bytes "x")],
          cwd := ["home"],
          blobs := [] } = Res.ok w1 ∧ w1.cwd = ["home"] ∧
      w1.fs = setAssoc [(["tmp", "work", "m", "a.bin"], Node.bytes "x")]
          (["home"] ++ [baseName ["tmp", "work", "m"] ++ ".tar.gz"])
          (Node.tarArchive (baseName ["tmp", "work", "m"])
            (subtreeFs [(["tmp", "work", "m", "a.bin"], Node.bytes "x")]
              (dirName ["tmp", "work", "m"] ++ [baseName ["tmp", "work", "m"]]))) ∧
      getAssoc w1.fs (["home"] ++ [baseName ["tmp", "work", "m"] ++ ".tar.gz"]) =
        some (Node.tarArchive (baseName ["tmp", "work", "m"])
          (subtreeFs [(["tmp", "work", "m", "a.bin"], Node.bytes "x")]
            (dirName ["tmp", "work", "m"] ++ [baseName ["tmp", "work", "m"]])))) :=
  ⟨rfl,
   object_store_save_tarball_in_cwd.1 ⟨["data", "root"], "bucket"⟩ ["tmp", "work", "m"] _ rfl,
   object_store_save_tarball_in_cwd.2 ⟨["data", "root"], "bucket"⟩ ["tmp", "work", "m"] _ rfl⟩

/-- C9: a successful object-store fetch extracts the downloaded archive into
the data directory and leaves a local copy of the archive at the path equal
to the fetch target name, while the remote store and the working directory
are unchanged; the final filesystem is exactly the downloaded file plus the
extraction. -/
theorem object_store_fetch_leaves_archive_copy :
    (∀ (P : AWSPersistor) (f : String) (w : S3World) (root : String)
        (entries : List (FPath × Node)),
      getAssoc w.objects f = some (Node.tarArchive root entries) →
      (P.data_dir ++ [root]).isPrefixOf (w.cwd ++ [f]) = false →
      ∃ w2, P.fetch_and_extract f w = Res.ok w2 ∧
        w2.objects = w.objects ∧ w2.cwd = w.cwd ∧
        w2.fs = extractTar (setAssoc w.fs (w.cwd ++ [f]) (Node.tarArchive root entries))
          P.data_dir root entries ∧
        getAssoc w2.fs (w.cwd ++ [f]) = some (Node.tarArchive root entries)) ∧
    (∀ (P : GCSPersistor) (f : String) (w : GCSWorld) (root : String)
        (entries : List (FPath × Node)),
      getAssoc w.blobs f = some (Node.tarArchive root entries) →
      (P.data_dir ++ [root]).isPrefixOf (w.cwd ++ [f]) = false →
      ∃ w2, P.fetch_and_extract f w = Res.ok w2 ∧
        w2.blobs = w.blobs ∧ w2.cwd = w.cwd ∧
        w2.fs = extractTar (setAssoc w.fs (w.cwd ++ [f]) (Node.tarArchive root entries))
          P.data_dir root entries ∧
        getAssoc w2.fs (w.cwd ++ [f]) = some (Node.tarArchive root entries)) := by
  constructor
  · intro P f w root entries hobj hsep
    refine ⟨_, aws_fetch_ok P f w root entries hobj, rfl, rfl, rfl, ?_⟩
    show getAssoc (extractTar (setAssoc w.fs (w.cwd ++ [f]) (Node.tarArchive root entries))
      P.data_dir root entries) (w.cwd ++ [f]) = some (Node.tarArchive root entries)
    rw [getAssoc_extractTar_other _ _ _ _ _ hsep]
    exact getAssoc_setAssoc_self _ _ _
  · intro P f w root entries hobj hsep
    refine ⟨_, gcs_fetch_ok P f w root entries hobj, rfl, rfl, rfl, ?_⟩
    show getAssoc (extractTar (setAssoc w.fs (w.cwd ++ [f]) (Node.tarArchive root entries))
      P.data_dir root entries) (w.cwd ++ [f]) = some (Node.tarArchive root entries)
    rw [getAssoc_extractTar_other _ _ _ _ _ hsep]
    exact getAssoc_setAssoc_self _ _ _

/-- Witness for C9 at a concrete stored archive. -/
theorem object_store_fetch_leaves_archive_copy_witness :
    getAssoc ([("m.tar.gz", Node.tarArchive "m" [(["a.txt"], Node.bytes "y")])] :
        List (String × Node)) "m.tar.gz" =
      some (Node.tarArchive "m" [(["a.txt"], Node.bytes "y")]) ∧
    (∃ w2, AWSPersistor.fetch_and_extract ⟨["data"], "bucket"⟩ "m.tar.gz"
        { fs := [],
          cwd := [],
          objects := [("m.tar.gz", Node.tarArchive "m" [(["a.txt"], Node.bytes "y")])] } =
        Res.ok w2 ∧
      w2.objects = [("m.tar.gz", Node.tarArchive "m" [(["a.txt"], Node.bytes "y")])] ∧
      w2.cwd = [] ∧
      w2.fs = extractTar (setAssoc [] ([] ++ ["m.tar.gz"])
          (Node.tarArchive "m" [(["a.txt"], Node.bytes "y")]))
        ["data"] "m" [(["a.txt"], Node.bytes "y")] ∧
      getAssoc w2.fs ([] ++ ["m.tar.gz"]) =
        some (Node.tarArchive "m" [(["a.txt"], Node.bytes "y")])) ∧
    (∃ w2, GCSPersistor.fetch_and_extract ⟨["data"], "bucket"⟩ "m.tar.gz"
        { fs := [],
          cwd := [],
          blobs := [("m.tar.gz", Node.tarArchive "m" [(["a.txt"], Node.bytes "y")])] } =
        Res.ok w2 ∧
      w2.blobs = [("m.tar.gz", Node.tarArchive "m" [(["a.txt"], Node.bytes "y")])] ∧
      w2.cwd = [] ∧
      w2.fs = extractTar (setAssoc [] ([] ++ ["m.tar.gz"])
          (Node.tarArchive "m" [(["a.txt"], Node.bytes "y")]))
        ["data"] "m" [(["a.txt"], Node.bytes "y")] ∧
      getAssoc w2.fs ([] ++ ["m.tar.gz"]) =
        some (Node.tarArchive "m" [(["a.txt"], Node.bytes "y")])) :=
  ⟨rfl,
   object_store_fetch_leaves_archive_copy.1 ⟨["data"], "bucket"⟩ "m.tar.gz" _ "m"
     [(["a.txt"], Node.bytes "y")] rfl rfl,
   object_store_fetch_leaves_archive_copy.2 ⟨["data"], "bucket"⟩ "m.tar.gz" _ "m"
     [(["a.txt"], Node.bytes "y")] rfl rfl⟩

/-- C1 counterexample: on the concrete example bundle, the document-store
save followed by fetch succeeds but the restored metadata file is not
byte-identical to the original: json.load followed by json.dump drops the
leading space, so the tree restricted to the manifest set differs from the
saved one. -/
theorem mongo_roundtrip_not_byte_identical :
    mongoRoundTripRead ⟨"mongodb://localhost", "models"⟩ ["m"] exampleMongoWorld
      ["m", "metadata.json"] = some "1" ∧
    readFileStr exampleMongoWorld.fs ["m", "metadata.json"] = some " 1" ∧
    mongoRoundTripRead ⟨"mongodb://localhost", "models"⟩ ["m"] exampleMongoWorld
      ["m", "metadata.json"] ≠
      readFileStr exampleMongoWorld.fs ["m", "metadata.json"] :=
  ⟨rfl, rfl, by decide⟩

/-- C1 (amended): save then fetch reproduces the saved tree: for the two
object-store backends the full tree under the data directory is byte-
identical to the saved directory (on a filesystem with well-formed distinct
paths, a clean extraction destination, and a working-directory tarball path
outside the destination); for the document store, the manifest files are
restored at their original paths with non-JSON entries byte-identical and
each JSON entry holding the json.dump re-serialization of the parsed
original (not its original bytes). -/
theorem roundtrip_reproduces_model_tree :
    (∀ (P : AWSPersistor) (target : FPath) (w : S3World),
      target ≠ [] → isdirFs w.fs target = true → (w.fs.map Prod.fst).Nodup →
      subtreeFs w.fs (P.data_dir ++ [baseName target]) = [] →
      strictPre (P.data_dir ++ [baseName target])
        (w.cwd ++ [baseName target ++ ".tar.gz"]) = false →
      ∃ w1 w2, P.save_tar target w = Res.ok w1 ∧
        P.fetch_and_extract (baseName target ++ ".tar.gz") w1 = Res.ok w2 ∧
        subtreeFs w2.fs (P.data_dir ++ [baseName target]) = subtreeFs w.fs target) ∧
    (∀ (P : GCSPersistor) (target : FPath) (w : GCSWorld),
      target ≠ [] → isdirFs w.fs target = true → (w.fs.map Prod.fst).Nodup →
      subtreeFs w.fs (P.data_dir ++ [baseName target]) = [] →
      strictPre (P.data_dir ++ [baseName target])
        (w.cwd ++ [baseName target ++ ".tar.gz"]) = false →
      ∃ w1 w2, P.save_tar target w = Res.ok w1 ∧
        P.fetch_and_extract (baseName target ++ ".tar.gz") w1 = Res.ok w2 ∧
        subtreeFs w2.fs (P.data_dir ++ [baseName target]) = subtreeFs w.fs target) ∧
    (∀ (P : MongoDBPersistor) (target : FPath) (w : MongoWorld)
        (c1 c2 c3 c4 c5 c6 : String) (j2 j3 j4 j5 : Json),
      target ≠ [] → isdirFs w.fs target = true →
      readFileStr w.fs (target ++ ["intent_classifier.pkl"]) = some c1 →
      readFileStr w.fs (target ++ ["metadata.json"]) = some c2 →
      readFileStr w.fs (target ++ ["entity_synonyms.json"]) = some c3 →
      readFileStr w.fs (target ++ ["training_data.json"]) = some c4 →
      readFileStr w.fs (target ++ ["ner", "config.json"]) = some c5 →
      readFileStr w.fs (target ++ ["ner", "model"]) = some c6 →
      parseJson c2 = some j2 → parseJson c3 = some j3 →
      parseJson c4 = some j4 → parseJson c5 = some j5 →
      w.collection.find? (fun d => docMatches d (baseName target)) = none →
      ∃ w1 w2, P.save_tar target w = Res.ok w1 ∧
        P.fetch_and_extract target w1 = Res.ok w2 ∧
        readFileStr w2.fs (target ++ ["intent_classifier.pkl"]) = some c1 ∧
        readFileStr w2.fs (target ++ ["metadata.json"]) = some (dumpJson j2) ∧
        readFileStr w2.fs (target ++ ["entity_synonyms.json"]) = some (dumpJson j3) ∧
        readFileStr w2.fs (target ++ ["training_data.json"]) = some (dumpJson j4) ∧
        readFileStr w2.fs (target ++ ["ner", "config.json"]) = some (dumpJson j5) ∧
        readFileStr w2.fs (target ++ ["ner", "model"]) = some c6) :=
  ⟨aws_roundtrip, gcs_roundtrip, mongo_roundtrip⟩

/-- Witness for the amended C1 at concrete bundles for the three backends. -/
theorem roundtrip_reproduces_model_tree_witness :
    isdirFs [(["m", "a.txt"], Node.bytes "x")] ["m"] = true ∧
    (∃ w1 w2, AWSPersistor.save_tar ⟨["data"], "bucket"⟩ ["m"]
        { fs := [(["m", "a.txt"], Node.bytes "x")],
          cwd := [],
          objects := [] } = Res.ok w1 ∧
      AWSPersistor.fetch_and_extract ⟨["data"], "bucket"⟩
        (baseName ["m"] ++ ".tar.gz") w1 = Res.ok w2 ∧
      subtreeFs w2.fs (["data"] ++ [baseName ["m"]]) =
        subtreeFs [(["m", "a.txt"], Node.bytes "x")] ["m"]) ∧
    (∃ w1 w2, GCSPersistor.save_tar ⟨["data"], "bucket"⟩ ["m"]
        { fs := [(["m", "a.txt"], Node.bytes "x")],
          cwd := [],
          blobs := [] } = Res.ok w1 ∧
      GCSPersistor.fetch_and_extract ⟨["data"], "bucket"⟩
        (baseName ["m"] ++ ".tar.gz") w1 = Res.ok w2 ∧
      subtreeFs w2.fs (["data"] ++ [baseName ["m"]]) =
        subtreeFs [(["m", "a.txt"], Node.bytes "x")] ["m"]) ∧
    (∃ w1 w2, MongoDBPersistor.save_tar ⟨"mongodb://localhost", "models"⟩ ["m"]
        exampleMongoWorld = Res.ok w1 ∧
      MongoDBPersistor.fetch_and_extract ⟨"mongodb://localhost", "models"⟩ ["m"] w1 =
        Res.ok w2 ∧
      readFileStr w2.fs (["m"] ++ ["intent_classifier.pkl"]) = some "P" ∧
      readFileStr w2.fs (["m"] ++ ["metadata.json"]) = some (dumpJson (Json.num 1)) ∧
      readFileStr w2.fs (["m"] ++ ["entity_synonyms.json"]) = some (dumpJson (Json.arr [])) ∧
      readFileStr w2.fs (["m"] ++ ["training_data.json"]) = some (dumpJson (Json.num 0)) ∧
      readFileStr w2.fs (["m"] ++ ["ner", "config.json"]) = some (dumpJson (Json.num 1)) ∧
      readFileStr w2.fs (["m"] ++ ["ner", "model"]) = some "M") :=
  ⟨rfl,
   roundtrip_reproduces_model_tree.1 ⟨["data"], "bucket"⟩ ["m"]
     { fs := [(["m", "a.txt"], Node.bytes "x")], cwd := [], objects := [] }
     (by decide) rfl (by decide) rfl rfl,
   roundtrip_reproduces_model_tree.2.1 ⟨["data"], "bucket"⟩ ["m"]
     { fs := [(["m", "a.txt"], Node.bytes "x")], cwd := [], blobs := [] }
     (by decide) rfl (by decide) rfl rfl,
   roundtrip_reproduces_model_tree.2.2 ⟨"mongodb://localhost", "models"⟩ ["m"]
     exampleMongoWorld "P" " 1" "[]" "0" "1" "M"
     (Json.num 1) (Json.arr []) (Json.num 0) (Json.num 1)
     (by decide) rfl rfl rfl rfl rfl rfl rfl rfl rfl rfl rfl rfl⟩

/-- C3 counterexample: the S3 fetch opens the local file for writing before
the download starts, so fetching a name with no corresponding remote object
raises the client error with a fresh empty local file left behind: the local
filesystem did change. -/
theorem aws_fetch_missing_writes_local_file :
    AWSPersistor.fetch_and_extract ⟨["data"], "bucket"⟩ "m.tar.gz"
      { fs := [], cwd := [], objects := [] } =
      Res.err (PErr.clientError "m.tar.gz")
        { fs := [(["m.tar.gz"], Node.bytes "")], cwd := [], objects := [] } ∧
    ([(["m.tar.gz"], Node.bytes "")] : Fs) ≠ ([] : Fs) :=
  ⟨rfl, List.cons_ne_nil _ _⟩

/-- C3 (amended): fetch on a name with no remote object fails with the
not-found signal in every backend; the document store and the GCS client
leave the state untouched, while the AWS variant first creates (truncates)
an empty local file at the fetch path and changes nothing else. -/
theorem fetch_missing_remote_rejected :
    (∀ (P : GCSPersistor) (f : String) (w : GCSWorld),
      getAssoc w.blobs f = none →
      P.fetch_and_extract f w = Res.err (PErr.notFound f) w) ∧
    (∀ (P : MongoDBPersistor) (md : FPath) (w : MongoWorld),
      w.collection.find? (fun d => docMatches d (baseName md)) = none →
      P.fetch_and_extract md w = Res.err (PErr.valueError
        ("Collection does not contain a model for given name \x27" ++
          baseName md ++ "\x27")) w) ∧
    (∀ (P : AWSPersistor) (f : String) (w : S3World),
      getAssoc w.objects f = none →
      P.fetch_and_extract f w = Res.err (PErr.clientError f)
        { w with fs := setAssoc w.fs (w.cwd ++ [f]) (Node.bytes "") }) := by
  refine ⟨?_, ?_, ?_⟩
  · intro P f w h
    simp [GCSPersistor.fetch_and_extract, h]
  · intro P md w h
    simp [MongoDBPersistor.fetch_and_extract, h]
  · intro P f w h
    simp [AWSPersistor.fetch_and_extract, h]

/-- Witness for the amended C3 at concrete empty stores. -/
theorem fetch_missing_remote_rejected_witness :
    getAssoc ([] : List (String × Node)) "m.tar.gz" = none ∧
    GCSPersistor.fetch_and_extract ⟨["data"], "bucket"⟩ "m.tar.gz"
      { fs := [], cwd := [], blobs := [] } =
      Res.err (PErr.notFound "m.tar.gz") { fs := [], cwd := [], blobs := [] } ∧
    MongoDBPersistor.fetch_and_extract ⟨"mongodb://localhost", "models"⟩ ["m"]
      { fs := [], cwd := [], collection := [], nextId := 0 } =
      Res.err (PErr.valueError
        ("Collection does not contain a model for given name \x27" ++
          baseName ["m"] ++ "\x27"))
        { fs := [], cwd := [], collection := [], nextId := 0 } ∧
    AWSPersistor.fetch_and_extract ⟨["data"], "bucket"⟩ "m.tar.gz"
      { fs := [], cwd := [], objects := [] } =
      Res.err (PErr.clientError "m.tar.gz")
        { fs := setAssoc [] ([] ++ ["m.tar.gz"]) (Node.bytes ""),
          cwd := [],
          objects := [] } :=
  ⟨rfl,
   fetch_missing_remote_rejected.1 ⟨["data"], "bucket"⟩ "m.tar.gz" _ rfl,
   fetch_missing_remote_rejected.2.1 ⟨"mongodb://localhost", "models"⟩ ["m"] _ rfl,
   fetch_missing_remote_rejected.2.2 ⟨["data"], "bucket"⟩ "m.tar.gz" _ rfl⟩
